import Mathlib

/-!
Verification of the flow-vector correction framework (Qn correction steps).

The development shallowly embeds the correction-step implementations found in
src/QnCorrections (Recentering.cpp, TwistAndRescale.cpp, GainEqualization.cpp,
include/CorrectionStep.h) and src/Base/include/Profile.h.  Machine floating
point is modelled by exact rationals; the square root used by the correlations
method of the twist-and-rescale step and by the profile error is an explicit
function parameter.  External collaborators that the spec declares consumed,
not specified (the event-class bin lookup and the calibration histogram
storage) are modelled as records of lookup functions plus the trace of fill
calls made against them.
-/

namespace Qn

/-- Correction step states, from CorrectionStep.h (enum class State):
CALIBRATION, APPLY, APPLYCOLLECT, PASSIVE. -/
inductive State where
  | CALIBRATION
  | APPLY
  | APPLYCOLLECT
  | PASSIVE
deriving DecidableEq, Repr

/-- Modelled from the spec: the class CorrectionQnVector is used throughout
src/QnCorrections but its header is not under src/.  Per the spec data model, a
flow vector is an ordered mapping harmonic-number to a (Qx, Qy) pair together
with a good-quality flag; the configured harmonic set lives in the owning
sub-event. -/
structure CorrectionQnVector where
  qx : Int → ℚ
  qy : Int → ℚ
  good : Bool

/-- SetQx(harmonic, value): pointwise update of the X component. -/
def CorrectionQnVector.setQx (v : CorrectionQnVector) (harmonic : Int) (x : ℚ) :
    CorrectionQnVector :=
  { v with qx := fun h => if h = harmonic then x else v.qx h }

/-- SetQy(harmonic, value): pointwise update of the Y component. -/
def CorrectionQnVector.setQy (v : CorrectionQnVector) (harmonic : Int) (y : ℚ) :
    CorrectionQnVector :=
  { v with qy := fun h => if h = harmonic then y else v.qy h }

/-- SetGood(flag): update of the quality flag. -/
def CorrectionQnVector.setGood (v : CorrectionQnVector) (g : Bool) : CorrectionQnVector :=
  { v with good := g }

/-- Modelled from the spec: CorrectionQnVector::Set(vector, changename) with
changename = kFALSE copies the components and the quality of the passed vector
while keeping the receiving vector's name. -/
def CorrectionQnVector.setFrom (_v src : CorrectionQnVector) : CorrectionQnVector :=
  { qx := src.qx, qy := src.qy, good := src.good }

/-- Modelled from the spec: CorrectionQnVector::Reset zeroes the vector before
the next event is processed ("reset to zero every event before raw-data
reduction"); an empty vector is not of good quality. -/
def CorrectionQnVector.reset (_v : CorrectionQnVector) : CorrectionQnVector :=
  { qx := fun _ => 0, qy := fun _ => 0, good := false }

/-- External sparse QA histogram (CorrectionHistogramSparse): only the trace of
Fill(variableContainer, weight) calls is relevant here; the number of recorded
fills is the not-validated-entries counter. -/
structure HistogramSparse where
  fills : List (List ℚ × ℚ)
deriving DecidableEq

/-- Fill(variableContainer, weight) on the sparse QA histogram. -/
def HistogramSparse.fill (hgm : HistogramSparse) (variableContainer : List ℚ) (w : ℚ) :
    HistogramSparse :=
  { fills := hgm.fills ++ [(variableContainer, w)] }

/-- External calibration table interface (CorrectionProfileComponents): the
event-class bin lookup GetBin, the per-bin validation flag, the per-harmonic
X/Y bin contents and errors, and the trace of FillX/FillY accumulation calls.
The spec treats this storage as a consumed service. -/
structure CorrectionProfileComponents where
  getBin : List ℚ → Int
  binContentValidated : Int → Bool
  xBinContent : Int → Int → ℚ
  yBinContent : Int → Int → ℚ
  xBinError : Int → Int → ℚ
  yBinError : Int → Int → ℚ
  xFills : List (Int × List ℚ × ℚ)
  yFills : List (Int × List ℚ × ℚ)

/-- FillX(harmonic, variableContainer, value): recorded accumulation. -/
def CorrectionProfileComponents.fillX (hgm : CorrectionProfileComponents) (harmonic : Int)
    (variableContainer : List ℚ) (value : ℚ) : CorrectionProfileComponents :=
  { hgm with xFills := hgm.xFills ++ [(harmonic, variableContainer, value)] }

/-- FillY(harmonic, variableContainer, value): recorded accumulation. -/
def CorrectionProfileComponents.fillY (hgm : CorrectionProfileComponents) (harmonic : Int)
    (variableContainer : List ℚ) (value : ℚ) : CorrectionProfileComponents :=
  { hgm with yFills := hgm.yFills ++ [(harmonic, variableContainer, value)] }

/-- The sub-event (detector configuration) context a correction step works in:
the configured harmonic map, the current Qn vector, the plain Q2n vector, and
the trace of UpdateCurrentQnVector calls made by correction steps. -/
structure SubEvent where
  harmonics : List Int
  currentQnVector : CorrectionQnVector
  plainQ2nVector : CorrectionQnVector
  updateTrace : List CorrectionQnVector

/-- Modelled from the spec: SubEvent::UpdateCurrentQnVector (header not under
src/) reassigns the sub-event's current Qn vector to the passed corrected
vector ("current is reassigned after every stage that reports applied"). -/
def SubEvent.updateCurrentQnVector (det : SubEvent) (v : CorrectionQnVector) : SubEvent :=
  { det with currentQnVector := v, updateTrace := det.updateTrace ++ [v] }

/-- The Recentering correction step state (Recentering.cpp): its state-machine
state, the width-equalization switch, the attached input histograms, its own
calibration histograms, the optional QA histograms, the optional not-validated
QA histogram, the corrected Qn vector and the input Qn vector the data
collection reads. -/
structure Recentering where
  fState : State
  fApplyWidthEqualization : Bool
  fInputHistograms : CorrectionProfileComponents
  fCalibrationHistograms : CorrectionProfileComponents
  fQAQnAverageHistogram : Option CorrectionProfileComponents
  fQANotValidatedBin : Option HistogramSparse
  fCorrectedQnVector : CorrectionQnVector
  fInputQnVector : CorrectionQnVector

/-- Body of the per-harmonic loop of Recentering::ProcessCorrections
(Recentering.cpp lines 175-189): widths default to 1 unless width equalization
is enabled, then the mean is subtracted and the result divided by the width,
componentwise. -/
def Recentering.correctHarmonic (hgm : CorrectionProfileComponents) (applyWidth : Bool)
    (bin : Int) (current : CorrectionQnVector) (corrected : CorrectionQnVector)
    (harmonic : Int) : CorrectionQnVector :=
  let widthX : ℚ := if applyWidth then hgm.xBinError harmonic bin else 1
  let widthY : ℚ := if applyWidth then hgm.yBinError harmonic bin else 1
  let c1 := corrected.setQx harmonic
    ((current.qx harmonic - hgm.xBinContent harmonic bin) / widthX)
  c1.setQy harmonic ((current.qy harmonic - hgm.yBinContent harmonic bin) / widthY)

/-- Recentering::ProcessCorrections (Recentering.cpp lines 156-207).  Returns
the updated step state, the updated sub-event and the applied flag. -/
def Recentering.ProcessCorrections (s : Recentering) (det : SubEvent)
    (variableContainer : List ℚ) : Recentering × SubEvent × Bool :=
  match s.fState with
  | State.CALIBRATION => (s, det, false)
  | State.APPLYCOLLECT | State.APPLY =>
    if det.currentQnVector.good then
      let corrected0 := s.fCorrectedQnVector.setFrom det.currentQnVector
      let bin := s.fInputHistograms.getBin variableContainer
      if s.fInputHistograms.binContentValidated bin then
        let corrected := det.harmonics.foldl
          (Recentering.correctHarmonic s.fInputHistograms s.fApplyWidthEqualization bin
            det.currentQnVector) corrected0
        ({ s with fCorrectedQnVector := corrected },
          det.updateCurrentQnVector corrected, true)
      else
        let nve := s.fQANotValidatedBin.map (fun h => h.fill variableContainer 1)
        ({ s with fCorrectedQnVector := corrected0, fQANotValidatedBin := nve },
          det.updateCurrentQnVector corrected0, true)
    else
      let corrected := s.fCorrectedQnVector.setGood false
      ({ s with fCorrectedQnVector := corrected },
        det.updateCurrentQnVector corrected, true)
  | State.PASSIVE => (s, det, false)

/-- The calibration accumulation of Recentering::ProcessDataCollection
(Recentering.cpp lines 218-225 and 230-237): FillX/FillY of the input Qn
vector components for every configured harmonic. -/
def Recentering.fillCalibration (s : Recentering) (variableContainer : List ℚ)
    (harmonics : List Int) : Recentering :=
  let filled := harmonics.foldl
    (fun hgm harmonic =>
      (hgm.fillX harmonic variableContainer (s.fInputQnVector.qx harmonic)).fillY
        harmonic variableContainer (s.fInputQnVector.qy harmonic))
    s.fCalibrationHistograms
  { s with fCalibrationHistograms := filled }

/-- The QA accumulation of Recentering::ProcessDataCollection (lines 242-249):
fills the average Qn QA histogram, when created, with the corrected vector. -/
def Recentering.fillQA (s : Recentering) (variableContainer : List ℚ)
    (harmonics : List Int) : Recentering :=
  let filled := s.fQAQnAverageHistogram.map (fun qa =>
    harmonics.foldl
      (fun hgm harmonic =>
        (hgm.fillX harmonic variableContainer (s.fCorrectedQnVector.qx harmonic)).fillY
          harmonic variableContainer (s.fCorrectedQnVector.qy harmonic)) qa)
  { s with fQAQnAverageHistogram := filled }

/-- Recentering::ProcessDataCollection (Recentering.cpp lines 213-257). -/
def Recentering.ProcessDataCollection (s : Recentering) (det : SubEvent)
    (variableContainer : List ℚ) : Recentering × Bool :=
  match s.fState with
  | State.CALIBRATION =>
    (if s.fInputQnVector.good then s.fillCalibration variableContainer det.harmonics else s,
      false)
  | State.APPLYCOLLECT =>
    let s1 := if s.fInputQnVector.good then s.fillCalibration variableContainer det.harmonics
      else s
    (s1.fillQA variableContainer det.harmonics, true)
  | State.APPLY => (s.fillQA variableContainer det.harmonics, true)
  | State.PASSIVE => (s, false)

/-- Recentering::ClearCorrectionStep (Recentering.cpp lines 260-262): resets
the corrected Qn vector. -/
def Recentering.ClearCorrectionStep (s : Recentering) : Recentering :=
  { s with fCorrectedQnVector := s.fCorrectedQnVector.reset }

/-- Gain equalization methods (GainEqualization.h Method enum): NONE, AVERAGE,
WIDTH. -/
inductive Method where
  | NONE
  | AVERAGE
  | WIDTH
deriving DecidableEq, Repr

/-- A raw contribution in the sub-event input data bank: a channel id and the
equalized weight (CorrectionDataVector; data are always taken from and stored
to the equalized weight, allowing chaining of input data corrections). -/
structure DataVector where
  id : Nat
  eqWeight : ℚ
deriving DecidableEq

/-- External channelized calibration table interface
(CorrectionProfileChannelizedIngress): per-(event-class, channel) bin lookup,
validation flag, bin content/error and the channel-group bin lookup. -/
structure ProfileChannelizedIngress where
  getBin : List ℚ → Nat → Int
  binContentValidated : Int → Bool
  binContent : Int → ℚ
  binError : Int → ℚ
  grpBin : List ℚ → Nat → Int
  grpBinContent : Int → ℚ

/-- External channelized sparse QA histogram
(CorrectionHistogramChannelizedSparse): trace of
Fill(variableContainer, channel, weight) calls. -/
structure HistogramChannelizedSparse where
  fills : List (List ℚ × Nat × ℚ)
deriving DecidableEq

/-- Fill(variableContainer, channel, weight) on the channelized sparse QA
histogram. -/
def HistogramChannelizedSparse.fill (hgm : HistogramChannelizedSparse)
    (variableContainer : List ℚ) (channel : Nat) (w : ℚ) : HistogramChannelizedSparse :=
  { fills := hgm.fills ++ [(variableContainer, channel, w)] }

/-- The fixed minimum significant value of GainEqualization
(fMinimumSignificantValue = 1E-6). -/
def fMinimumSignificantValue : ℚ := 1 / 1000000

/-- The GainEqualization correction step state (GainEqualization.cpp): state,
method, shift/scale parameters, group-weight configuration, attached input
histograms, the trace of calibration fills, and the optional QA histograms. -/
structure GainEqualization where
  fState : State
  fEqualizationMethod : Method
  fShift : ℚ
  fScale : ℚ
  fUseChannelGroupsWeights : Bool
  fHardCodedWeights : Option (Nat → ℚ)
  fInputHistograms : ProfileChannelizedIngress
  fCalibrationFills : List (List ℚ × Nat × ℚ)
  fQAMultiplicityBefore : Option (List (List ℚ × Nat × ℚ))
  fQAMultiplicityAfter : Option (List (List ℚ × Nat × ℚ))
  fQANotValidatedBin : Option HistogramChannelizedSparse

/-- The group weight determination shared by the AVERAGE and WIDTH branches of
GainEqualization::ProcessCorrections (lines 251-260 and 278-287): 1.0 unless
channel-group weights or hard-coded weights are configured. -/
def GainEqualization.groupWeight (s : GainEqualization) (variableContainer : List ℚ)
    (channel : Nat) : ℚ :=
  if s.fUseChannelGroupsWeights then
    s.fInputHistograms.grpBinContent (s.fInputHistograms.grpBin variableContainer channel)
  else
    match s.fHardCodedWeights with
    | some w => w channel
    | none => 1

/-- Body of the per-channel loop of the AVERAGE branch of
GainEqualization::ProcessCorrections (GainEqualization.cpp lines 246-268),
threading the rebuilt data bank and the not-validated QA histogram. -/
def GainEqualization.averageStep (s : GainEqualization) (variableContainer : List ℚ)
    (acc : List DataVector × Option HistogramChannelizedSparse) (dv : DataVector) :
    List DataVector × Option HistogramChannelizedSparse :=
  let bin := s.fInputHistograms.getBin variableContainer dv.id
  if s.fInputHistograms.binContentValidated bin then
    let average := s.fInputHistograms.binContent bin
    let groupweight := s.groupWeight variableContainer dv.id
    if fMinimumSignificantValue < average then
      (acc.1 ++ [{ dv with eqWeight := dv.eqWeight / average * groupweight }], acc.2)
    else
      (acc.1 ++ [{ dv with eqWeight := 0 }], acc.2)
  else
    (acc.1 ++ [dv], acc.2.map (fun h => h.fill variableContainer dv.id 1))

/-- Body of the per-channel loop of the WIDTH branch of
GainEqualization::ProcessCorrections (GainEqualization.cpp lines 270-297). -/
def GainEqualization.widthStep (s : GainEqualization) (variableContainer : List ℚ)
    (acc : List DataVector × Option HistogramChannelizedSparse) (dv : DataVector) :
    List DataVector × Option HistogramChannelizedSparse :=
  let bin := s.fInputHistograms.getBin variableContainer dv.id
  if s.fInputHistograms.binContentValidated bin then
    let average := s.fInputHistograms.binContent bin
    let width := s.fInputHistograms.binError bin
    let groupweight := s.groupWeight variableContainer dv.id
    if fMinimumSignificantValue < average then
      let w := (s.fShift + s.fScale * (dv.eqWeight - average) / width) * groupweight
      (acc.1 ++ [{ dv with eqWeight := w }], acc.2)
    else
      (acc.1 ++ [{ dv with eqWeight := 0 }], acc.2)
  else
    (acc.1 ++ [dv], acc.2.map (fun h => h.fill variableContainer dv.id 1))

/-- The calibration accumulation loop shared by the CALIBRATION and
APPLYCOLLECT branches of GainEqualization::ProcessCorrections (lines 220-222
and 227-229): Fill(variableContainer, id, equalized weight) per data vector. -/
def GainEqualization.fillCalibration (s : GainEqualization) (bank : List DataVector)
    (variableContainer : List ℚ) : GainEqualization :=
  let fills := bank.foldl (fun l dv => l ++ [(variableContainer, dv.id, dv.eqWeight)])
    s.fCalibrationFills
  { s with fCalibrationFills := fills }

/-- The APPLY part of GainEqualization::ProcessCorrections (lines 232-305): QA
before fill, the per-method equalization of the data bank, QA after fill. -/
def GainEqualization.applyBody (s : GainEqualization) (bank : List DataVector)
    (variableContainer : List ℚ) : GainEqualization × List DataVector :=
  let qaBefore := s.fQAMultiplicityBefore.map (fun l =>
    bank.foldl (fun acc dv => acc ++ [(variableContainer, dv.id, dv.eqWeight)]) l)
  let s1 := { s with fQAMultiplicityBefore := qaBefore }
  let stepResult : List DataVector × Option HistogramChannelizedSparse :=
    match s1.fEqualizationMethod with
    | Method.NONE => (bank.map (fun dv => { dv with eqWeight := dv.eqWeight }),
        s1.fQANotValidatedBin)
    | Method.AVERAGE => bank.foldl (s1.averageStep variableContainer) ([], s1.fQANotValidatedBin)
    | Method.WIDTH => bank.foldl (s1.widthStep variableContainer) ([], s1.fQANotValidatedBin)
  let s2 := { s1 with fQANotValidatedBin := stepResult.2 }
  let qaAfter := s2.fQAMultiplicityAfter.map (fun l =>
    stepResult.1.foldl (fun acc dv => acc ++ [(variableContainer, dv.id, dv.eqWeight)]) l)
  ({ s2 with fQAMultiplicityAfter := qaAfter }, stepResult.1)

/-- GainEqualization::ProcessCorrections (GainEqualization.cpp lines 216-311).
Returns the updated step state, the updated data bank and the applied flag. -/
def GainEqualization.ProcessCorrections (s : GainEqualization) (bank : List DataVector)
    (variableContainer : List ℚ) : GainEqualization × List DataVector × Bool :=
  match s.fState with
  | State.CALIBRATION => (s.fillCalibration bank variableContainer, bank, false)
  | State.APPLYCOLLECT =>
    let r := (s.fillCalibration bank variableContainer).applyBody bank variableContainer
    (r.1, r.2, true)
  | State.APPLY =>
    let r := s.applyBody bank variableContainer
    (r.1, r.2, true)
  | State.PASSIVE => (s, bank, false)

/-- GainEqualization::ProcessDataCollection (GainEqualization.cpp lines
323-339): it touches nothing and only returns the proper value according to
the state. -/
def GainEqualization.ProcessDataCollection (s : GainEqualization)
    (variableContainer : List ℚ) : GainEqualization × Bool :=
  let _ := variableContainer
  match s.fState with
  | State.CALIBRATION => (s, false)
  | State.APPLYCOLLECT => (s, true)
  | State.APPLY => (s, true)
  | State.PASSIVE => (s, false)

/-- Twist and rescale estimation methods (TwistAndRescale.h):
TWRESCALE_doubleHarmonic and TWRESCALE_correlations. -/
inductive TwistAndRescaleMethod where
  | TWRESCALE_doubleHarmonic
  | TWRESCALE_correlations
deriving DecidableEq, Repr

/-- The pairs of detectors a 3D correlation profile is keyed by (the string
keys AB, BC and AC of CorrectionProfile3DCorrelations). -/
inductive DetectorPair where
  | AB
  | BC
  | AC
deriving DecidableEq, Repr

/-- External three-detector correlation calibration table
(CorrectionProfile3DCorrelations): bin lookup, validation flag, the XX/YY/XY
bin contents per detector pair and harmonic, and the trace of Fill calls. -/
structure CorrectionProfile3DCorrelations where
  getBin : List ℚ → Int
  binContentValidated : Int → Bool
  xxBinContent : DetectorPair → Int → Int → ℚ
  yyBinContent : DetectorPair → Int → Int → ℚ
  xyBinContent : DetectorPair → Int → Int → ℚ
  fills : List (CorrectionQnVector × CorrectionQnVector × CorrectionQnVector × List ℚ)

/-- Fill(vectorA, vectorB, vectorC, variableContainer) on the 3D correlation
profile: recorded accumulation. -/
def CorrectionProfile3DCorrelations.fill (hgm : CorrectionProfile3DCorrelations)
    (a b c : CorrectionQnVector) (variableContainer : List ℚ) :
    CorrectionProfile3DCorrelations :=
  { hgm with fills := hgm.fills ++ [(a, b, c, variableContainer)] }

/-- The fixed stability threshold of TwistAndRescale
(fMaxThreshold = 99999999.0). -/
def fMaxThreshold : ℚ := 99999999

/-- Double-harmonic method parameter A+ = 1 + X2n (TwistAndRescale.cpp line
391). -/
def dhAplus (x2n : ℚ) : ℚ := 1 + x2n

/-- Double-harmonic method parameter A- = 1 - X2n (line 392). -/
def dhAminus (x2n : ℚ) : ℚ := 1 - x2n

/-- Double-harmonic method parameter Lambda+ = Y2n / A+ (line 393). -/
def dhLambdaPlus (x2n y2n : ℚ) : ℚ := y2n / dhAplus x2n

/-- Double-harmonic method parameter Lambda- = Y2n / A- (line 394). -/
def dhLambdaMinus (x2n y2n : ℚ) : ℚ := y2n / dhAminus x2n

/-- Correlations method parameter
A+ = sqrt(|2 XAXC|) XAXB / sqrt(|XAXB XBXC + XAYB XBYC|) (line 475). -/
def corrAplus (sq : ℚ → ℚ) (XAXC XAXB XBXC XAYB XBYC : ℚ) : ℚ :=
  sq |2 * XAXC| * XAXB / sq |XAXB * XBXC + XAYB * XBYC|

/-- Correlations method parameter
A- = sqrt(|2 XAXC|) YAYB / sqrt(|XAXB XBXC + XAYB XBYC|) (line 476). -/
def corrAminus (sq : ℚ → ℚ) (XAXC YAYB XAXB XBXC XAYB XBYC : ℚ) : ℚ :=
  sq |2 * XAXC| * YAYB / sq |XAXB * XBXC + XAYB * XBYC|

/-- Correlations method parameter Lambda+ = XAYB / XAXB (line 477). -/
def corrLambdaPlus (XAYB XAXB : ℚ) : ℚ := XAYB / XAXB

/-- Correlations method parameter Lambda- = XAYB / YAYB (line 478). -/
def corrLambdaMinus (XAYB YAYB : ℚ) : ℚ := XAYB / YAYB

/-- The triple of Qn vectors TwistAndRescale::ProcessCorrections mutates:
fCorrectedQnVector, fTwistCorrectedQnVector and fRescaleCorrectedQnVector. -/
structure QnVectorTriple where
  corrected : CorrectionQnVector
  twist : CorrectionQnVector
  rescale : CorrectionQnVector

/-- The writes performed when the twist sub-step applies (TwistAndRescale.cpp
lines 418-425 and 499-506): all three vectors receive the twisted
components. -/
def QnVectorTriple.setTwist (tr : QnVectorTriple) (harmonic : Int) (x y : ℚ) :
    QnVectorTriple :=
  { corrected := (tr.corrected.setQx harmonic x).setQy harmonic y,
    twist := (tr.twist.setQx harmonic x).setQy harmonic y,
    rescale := (tr.rescale.setQx harmonic x).setQy harmonic y }

/-- The writes performed when the rescale sub-step applies (lines 438-443 and
517-522): the corrected and rescale vectors receive the rescaled
components. -/
def QnVectorTriple.setRescale (tr : QnVectorTriple) (harmonic : Int) (x y : ℚ) :
    QnVectorTriple :=
  { corrected := (tr.corrected.setQx harmonic x).setQy harmonic y,
    twist := tr.twist,
    rescale := (tr.rescale.setQx harmonic x).setQy harmonic y }

/-- Body of the per-harmonic loop of the double-harmonic branch of
TwistAndRescale::ProcessCorrections (TwistAndRescale.cpp lines 387-445): the
four stability-threshold guards skip the harmonic before any write, the twist
is applied, then the A+ = 0 and A- = 0 guards skip the remaining rescale
sub-step. -/
def TwistAndRescale.doubleHarmonicStep (hgm : CorrectionProfileComponents) (bin : Int)
    (applyTwist applyRescale : Bool) (tr : QnVectorTriple) (harmonic : Int) :
    QnVectorTriple :=
  let X2n := hgm.xBinContent (harmonic * 2) bin
  let Y2n := hgm.yBinContent (harmonic * 2) bin
  let Aplus := dhAplus X2n
  let Aminus := dhAminus X2n
  let LambdaPlus := dhLambdaPlus X2n Y2n
  let LambdaMinus := dhLambdaMinus X2n Y2n
  if fMaxThreshold < |Aplus| then tr
  else if fMaxThreshold < |Aminus| then tr
  else if fMaxThreshold < |LambdaPlus| then tr
  else if fMaxThreshold < |LambdaMinus| then tr
  else
    let Qx := tr.twist.qx harmonic
    let Qy := tr.twist.qy harmonic
    let newQx := (Qx - LambdaMinus * Qy) / (1 - LambdaMinus * LambdaPlus)
    let newQy := (Qy - LambdaPlus * Qx) / (1 - LambdaMinus * LambdaPlus)
    let tr1 := if applyTwist then tr.setTwist harmonic newQx newQy else tr
    let newQx1 := newQx / Aplus
    let newQy1 := newQy / Aminus
    if Aplus = 0 then tr1
    else if Aminus = 0 then tr1
    else if applyRescale then tr1.setRescale harmonic newQx1 newQy1
    else tr1

/-- Body of the per-harmonic loop of the correlations branch of
TwistAndRescale::ProcessCorrections (TwistAndRescale.cpp lines 468-524); the
square root is an explicit parameter standing for TMath::Sqrt. -/
def TwistAndRescale.correlationsStep (sq : ℚ → ℚ) (hgm : CorrectionProfile3DCorrelations)
    (bin : Int) (applyTwist applyRescale : Bool) (tr : QnVectorTriple) (harmonic : Int) :
    QnVectorTriple :=
  let XAXC := hgm.xxBinContent DetectorPair.AC harmonic bin
  let YAYB := hgm.yyBinContent DetectorPair.AB harmonic bin
  let XAXB := hgm.xxBinContent DetectorPair.AB harmonic bin
  let XBXC := hgm.xxBinContent DetectorPair.BC harmonic bin
  let XAYB := hgm.xyBinContent DetectorPair.AB harmonic bin
  let XBYC := hgm.xyBinContent DetectorPair.BC harmonic bin
  let Aplus := corrAplus sq XAXC XAXB XBXC XAYB XBYC
  let Aminus := corrAminus sq XAXC YAYB XAXB XBXC XAYB XBYC
  let LambdaPlus := corrLambdaPlus XAYB XAXB
  let LambdaMinus := corrLambdaMinus XAYB YAYB
  if fMaxThreshold < |Aplus| then tr
  else if fMaxThreshold < |Aminus| then tr
  else if fMaxThreshold < |LambdaPlus| then tr
  else if fMaxThreshold < |LambdaMinus| then tr
  else
    let Qx := tr.twist.qx harmonic
    let Qy := tr.twist.qy harmonic
    let newQx := (Qx - LambdaMinus * Qy) / (1 - LambdaMinus * LambdaPlus)
    let newQy := (Qy - LambdaPlus * Qx) / (1 - LambdaMinus * LambdaPlus)
    let tr1 := if applyTwist then tr.setTwist harmonic newQx newQy else tr
    let newQx1 := newQx / Aplus
    let newQy1 := newQy / Aminus
    if Aplus = 0 then tr1
    else if Aminus = 0 then tr1
    else if applyRescale then tr1.setRescale harmonic newQx1 newQy1
    else tr1

/-- The TwistAndRescale correction step state (TwistAndRescale.cpp): state,
method, the twist/rescale switches, the attached input histograms of both
methods, their calibration histograms, the optional QA histograms, the three
corrected Qn vectors, the input Qn vector and the current Qn vectors of the
reference detectors B and C. -/
structure TwistAndRescale where
  fState : State
  fTwistAndRescaleMethod : TwistAndRescaleMethod
  fApplyTwist : Bool
  fApplyRescale : Bool
  fDoubleHarmonicInputHistograms : CorrectionProfileComponents
  fDoubleHarmonicCalibrationHistograms : CorrectionProfileComponents
  fCorrelationsInputHistograms : CorrectionProfile3DCorrelations
  fCorrelationsCalibrationHistograms : CorrectionProfile3DCorrelations
  fQANotValidatedBin : Option HistogramSparse
  fQATwistQnAverageHistogram : Option CorrectionProfileComponents
  fQARescaleQnAverageHistogram : Option CorrectionProfileComponents
  fCorrectedQnVector : CorrectionQnVector
  fTwistCorrectedQnVector : CorrectionQnVector
  fRescaleCorrectedQnVector : CorrectionQnVector
  fInputQnVector : CorrectionQnVector
  fBCurrentQnVector : CorrectionQnVector
  fCCurrentQnVector : CorrectionQnVector

/-- TwistAndRescale::ProcessCorrections (TwistAndRescale.cpp lines 356-552).
Returns the updated step state, the updated sub-event and the applied flag;
sq stands for TMath::Sqrt. -/
def TwistAndRescale.ProcessCorrections (sq : ℚ → ℚ) (s : TwistAndRescale) (det : SubEvent)
    (variableContainer : List ℚ) : TwistAndRescale × SubEvent × Bool :=
  match s.fState with
  | State.CALIBRATION => (s, det, false)
  | State.APPLYCOLLECT | State.APPLY =>
    let s1 :=
      match s.fTwistAndRescaleMethod with
      | TwistAndRescaleMethod.TWRESCALE_doubleHarmonic =>
        if det.currentQnVector.good then
          let corrected0 := s.fCorrectedQnVector.setFrom det.currentQnVector
          let twist0 := s.fTwistCorrectedQnVector.setFrom corrected0
          let rescale0 := s.fRescaleCorrectedQnVector.setFrom corrected0
          let bin := s.fDoubleHarmonicInputHistograms.getBin variableContainer
          if s.fDoubleHarmonicInputHistograms.binContentValidated bin then
            let tr := det.harmonics.foldl
              (TwistAndRescale.doubleHarmonicStep s.fDoubleHarmonicInputHistograms bin
                s.fApplyTwist s.fApplyRescale)
              ⟨corrected0, twist0, rescale0⟩
            { s with fCorrectedQnVector := tr.corrected,
                     fTwistCorrectedQnVector := tr.twist,
                     fRescaleCorrectedQnVector := tr.rescale }
          else
            let nve := s.fQANotValidatedBin.map (fun h => h.fill variableContainer 1)
            { s with fCorrectedQnVector := corrected0,
                     fTwistCorrectedQnVector := twist0,
                     fRescaleCorrectedQnVector := rescale0,
                     fQANotValidatedBin := nve }
        else
          { s with fCorrectedQnVector := s.fCorrectedQnVector.setGood false }
      | TwistAndRescaleMethod.TWRESCALE_correlations =>
        if det.currentQnVector.good then
          let corrected0 := s.fCorrectedQnVector.setFrom det.currentQnVector
          let twist0 := s.fTwistCorrectedQnVector.setFrom corrected0
          let rescale0 := s.fRescaleCorrectedQnVector.setFrom corrected0
          let bin := s.fCorrelationsInputHistograms.getBin variableContainer
          if s.fCorrelationsInputHistograms.binContentValidated bin then
            let tr := det.harmonics.foldl
              (TwistAndRescale.correlationsStep sq s.fCorrelationsInputHistograms bin
                s.fApplyTwist s.fApplyRescale)
              ⟨corrected0, twist0, rescale0⟩
            { s with fCorrectedQnVector := tr.corrected,
                     fTwistCorrectedQnVector := tr.twist,
                     fRescaleCorrectedQnVector := tr.rescale }
          else
            let nve := s.fQANotValidatedBin.map (fun h => h.fill variableContainer 1)
            { s with fCorrectedQnVector := corrected0,
                     fTwistCorrectedQnVector := twist0,
                     fRescaleCorrectedQnVector := rescale0,
                     fQANotValidatedBin := nve }
        else
          { s with fCorrectedQnVector := s.fCorrectedQnVector.setGood false }
    let det1 := if s1.fApplyTwist then det.updateCurrentQnVector s1.fTwistCorrectedQnVector
      else det
    let det2 := if s1.fApplyRescale then det1.updateCurrentQnVector s1.fRescaleCorrectedQnVector
      else det1
    (s1, det2, true)
  | State.PASSIVE => (s, det, false)

/-- The calibration accumulation of TwistAndRescale::ProcessDataCollection
(TwistAndRescale.cpp lines 562-597 and 602-638): the double-harmonic method
fills the X/Y components of the plain Q2n vector at twice the harmonic when it
is of good quality; the correlations method fills the 3D correlation profile
when the input vector and both reference-detector vectors are of good
quality. -/
def TwistAndRescale.collect (s : TwistAndRescale) (det : SubEvent)
    (variableContainer : List ℚ) : TwistAndRescale :=
  match s.fTwistAndRescaleMethod with
  | TwistAndRescaleMethod.TWRESCALE_doubleHarmonic =>
    if det.plainQ2nVector.good then
      let filled := det.harmonics.foldl
        (fun hgm harmonic =>
          (hgm.fillX (harmonic * 2) variableContainer (det.plainQ2nVector.qx harmonic)).fillY
            (harmonic * 2) variableContainer (det.plainQ2nVector.qy harmonic))
        s.fDoubleHarmonicCalibrationHistograms
      { s with fDoubleHarmonicCalibrationHistograms := filled }
    else s
  | TwistAndRescaleMethod.TWRESCALE_correlations =>
    if s.fInputQnVector.good && s.fBCurrentQnVector.good && s.fCCurrentQnVector.good then
      let filled := s.fCorrelationsCalibrationHistograms.fill s.fInputQnVector
        s.fBCurrentQnVector s.fCCurrentQnVector variableContainer
      { s with fCorrelationsCalibrationHistograms := filled }
    else s

/-- The QA accumulation of TwistAndRescale::ProcessDataCollection (lines
643-659): fills the twist and rescale average QA histograms, when created. -/
def TwistAndRescale.fillQA (s : TwistAndRescale) (det : SubEvent)
    (variableContainer : List ℚ) : TwistAndRescale :=
  let qaTwist := s.fQATwistQnAverageHistogram.map (fun qa =>
    det.harmonics.foldl
      (fun hgm harmonic =>
        (hgm.fillX harmonic variableContainer (s.fTwistCorrectedQnVector.qx harmonic)).fillY
          harmonic variableContainer (s.fTwistCorrectedQnVector.qy harmonic)) qa)
  let qaRescale := s.fQARescaleQnAverageHistogram.map (fun qa =>
    det.harmonics.foldl
      (fun hgm harmonic =>
        (hgm.fillX harmonic variableContainer (s.fRescaleCorrectedQnVector.qx harmonic)).fillY
          harmonic variableContainer (s.fRescaleCorrectedQnVector.qy harmonic)) qa)
  { s with fQATwistQnAverageHistogram := qaTwist, fQARescaleQnAverageHistogram := qaRescale }

/-- TwistAndRescale::ProcessDataCollection (TwistAndRescale.cpp lines
558-668). -/
def TwistAndRescale.ProcessDataCollection (s : TwistAndRescale) (det : SubEvent)
    (variableContainer : List ℚ) : TwistAndRescale × Bool :=
  match s.fState with
  | State.CALIBRATION => (s.collect det variableContainer, false)
  | State.APPLYCOLLECT => ((s.collect det variableContainer).fillQA det variableContainer, true)
  | State.APPLY => (s.fillQA det variableContainer, true)
  | State.PASSIVE => (s, false)

/-- TwistAndRescale::ClearCorrectionStep (TwistAndRescale.cpp lines 671-675):
resets the three corrected Qn vectors. -/
def TwistAndRescale.ClearCorrectionStep (s : TwistAndRescale) : TwistAndRescale :=
  { s with fTwistCorrectedQnVector := s.fTwistCorrectedQnVector.reset,
           fRescaleCorrectedQnVector := s.fRescaleCorrectedQnVector.reset,
           fCorrectedQnVector := s.fCorrectedQnVector.reset }

/-- The operations that can change a correction step's state within a run:
AttachInput (Recentering.cpp lines 111-117, TwistAndRescale.cpp lines 238-262,
GainEqualization.cpp lines 90-101), the external calibration freeze, and
AfterInputsAttachActions (TwistAndRescale.cpp lines 272-291). -/
inductive StepOp where
  | attachInput (success : Bool)
  | calibrationFrozen
  | afterInputsAttach (method : TwistAndRescaleMethod) (referenceBTwistApplied : Bool)
deriving DecidableEq, Repr

/-- One state transition of a correction step.  A successful AttachInput sets
APPLYCOLLECT and a failed one leaves the state alone (the source files above).
AfterInputsAttachActions forces PASSIVE exactly when the method is the
correlations one and reference detector B is not applying its twist correction
(TwistAndRescale.cpp lines 277-285); in every other case it changes nothing.
calibrationFrozen is Modelled from the spec: the external transition from
APPLYCOLLECT to APPLY ("external: calibration frozen") is driven by the
orchestrator, which is not under src/. -/
def stepTransition : State → StepOp → State
  | _, StepOp.attachInput true => State.APPLYCOLLECT
  | s, StepOp.attachInput false => s
  | State.APPLYCOLLECT, StepOp.calibrationFrozen => State.APPLY
  | s, StepOp.calibrationFrozen => s
  | _, StepOp.afterInputsAttach TwistAndRescaleMethod.TWRESCALE_correlations false =>
    State.PASSIVE
  | s, StepOp.afterInputsAttach _ _ => s

/-- The state a correction step reaches from the initial CALIBRATION state
(CorrectionStep.h line 141) after a list of operations. -/
def runStates (ops : List StepOp) : State := ops.foldl stepTransition State.CALIBRATION

namespace Statistics

/-- Qn::Statistics::Sigma (Profile.h lines 33-41), with the square root as an
explicit parameter: sqrt(|sum2 / n - mean * mean|) / sqrt(n). -/
def Sigma (sq : ℚ → ℚ) (mean sum2 n : ℚ) : ℚ :=
  let variance := |sum2 / n - mean * mean|
  sq variance / sq n

end Statistics

/-- The binned running statistic Qn::Profile (Profile.h lines 44-131). -/
structure Profile where
  mean : ℚ
  sum : ℚ
  sum2 : ℚ
  entries : ℤ
  binentries : ℚ
  error : ℚ
  mult_weight : ℚ
deriving DecidableEq, Repr

/-- The default-constructed Profile: the field initializers of Profile.h lines
120-126. -/
def Profile.empty : Profile :=
  { mean := 0, sum := 0, sum2 := 0, entries := 0, binentries := 0, error := 0,
    mult_weight := 1 }

/-- The six-argument constructor
Profile(mean, sum, sum2, error, entries, binentries) of Profile.h lines 55-62:
it initializes mult_weight from entries. -/
def Profile.mk6 (mean sum sum2 error : ℚ) (entries : ℤ) (binentries : ℚ) : Profile :=
  { mean := mean, sum := sum, sum2 := sum2, entries := entries, binentries := binentries,
    error := error, mult_weight := (entries : ℚ) }

/-- Profile::Update(value) (Profile.h lines 73-81). -/
def Profile.Update (sq : ℚ → ℚ) (p : Profile) (value : ℚ) : Profile :=
  let sum := p.sum + value
  let entries := p.entries + 1
  let binentries := p.binentries + 1
  let mean := sum / (entries : ℚ)
  let sum2 := p.sum2 + value * value
  let error := Statistics.Sigma sq mean sum2 (entries : ℚ)
  { mean := mean, sum := sum, sum2 := sum2, entries := entries, binentries := binentries,
    error := error, mult_weight := 1 }

/-- Qn::Merge(a, b) (Profile.h lines 196-205): entry counts and sums add, the
mean is recomputed from the summed statistics, and the weighted multiplicity
weight is passed to the six-argument constructor, whose sixth parameter is
binentries. -/
def Merge (sq : ℚ → ℚ) (a b : Profile) : Profile :=
  let nentries := a.entries + b.entries
  let nsum := a.sum + b.sum
  let nmean := nsum / (nentries : ℚ)
  let nsum2 := a.sum2 + b.sum2
  let mult_weight := (a.mult_weight * (a.entries : ℚ) + b.mult_weight * (b.entries : ℚ)) /
    ((a.entries : ℚ) + (b.entries : ℚ))
  let nerror := Statistics.Sigma sq nmean nsum2 (nentries : ℚ)
  Profile.mk6 nmean nsum nsum2 nerror nentries mult_weight

/-- Accumulation of a list of samples into one Profile by repeated
Update(value) calls starting from a default-constructed Profile; this is how a
calibration table bin is built over an event subset. -/
def accumulate (sq : ℚ → ℚ) (values : List ℚ) : Profile :=
  values.foldl (Profile.Update sq) Profile.empty

/-- An exact rational square root used to instantiate the square-root
parameter at concrete inputs: it agrees with the real square root whenever the
numerator and the denominator of the reduced argument are perfect squares,
which covers every concrete evaluation in this file. -/
def ratSqrt (q : ℚ) : ℚ := (Nat.sqrt q.num.toNat : ℚ) / (Nat.sqrt q.den : ℚ)

/-! Concrete fixtures used by witnesses and counterexamples. -/

/-- Fixture: the all-zero, not-good Qn vector. -/
def zeroQnVector : CorrectionQnVector :=
  { qx := fun _ => 0, qy := fun _ => 0, good := false }

/-- Fixture: a good-quality vector with Qx = 1 and Qy = 0 in every
harmonic. -/
def unitQnVector : CorrectionQnVector :=
  { qx := fun _ => 1, qy := fun _ => 0, good := true }

/-- Fixture: a component profile whose bins are all unvalidated and empty. -/
def emptyProfileComponents : CorrectionProfileComponents :=
  { getBin := fun _ => 0, binContentValidated := fun _ => false,
    xBinContent := fun _ _ => 0, yBinContent := fun _ _ => 0,
    xBinError := fun _ _ => 0, yBinError := fun _ _ => 0, xFills := [], yFills := [] }

/-- Fixture: a component profile whose bins are all validated with zero
contents. -/
def validatedZeroProfileComponents : CorrectionProfileComponents :=
  { emptyProfileComponents with binContentValidated := fun _ => true }

/-- Fixture: an empty, unvalidated 3D correlation profile. -/
def emptyCorrelationsProfile : CorrectionProfile3DCorrelations :=
  { getBin := fun _ => 0, binContentValidated := fun _ => false,
    xxBinContent := fun _ _ _ => 0, yyBinContent := fun _ _ _ => 0,
    xyBinContent := fun _ _ _ => 0, fills := [] }

/-- Fixture: a validated 3D correlation profile with XAXC = 0, XAXB = XBXC =
YAYB = 1, XAYB = 1/2, XBYC = 0, so that the correlations method computes
A+ = A- = 0 with finite Lambda+ = Lambda- = 1/2. -/
def cexCorrelationsProfile : CorrectionProfile3DCorrelations :=
  { getBin := fun _ => 0, binContentValidated := fun _ => true,
    xxBinContent := fun p _ _ => match p with | DetectorPair.AC => 0 | _ => 1,
    yyBinContent := fun _ _ _ => 1,
    xyBinContent := fun p _ _ => match p with | DetectorPair.AB => 1 / 2 | _ => 0,
    fills := [] }

/-- Fixture: a sub-event with the single harmonic 2, a good current vector
with (Qx, Qy) = (1, 0) and no update trace. -/
def cexSubEvent : SubEvent :=
  { harmonics := [2], currentQnVector := unitQnVector, plainQ2nVector := zeroQnVector,
    updateTrace := [] }

/-- Fixture: a TwistAndRescale step in the APPLY state using the correlations
method with both sub-steps enabled, attached to the degenerate correlation
profile. -/
def cexTwistAndRescale : TwistAndRescale :=
  { fState := State.APPLY,
    fTwistAndRescaleMethod := TwistAndRescaleMethod.TWRESCALE_correlations,
    fApplyTwist := true, fApplyRescale := true,
    fDoubleHarmonicInputHistograms := emptyProfileComponents,
    fDoubleHarmonicCalibrationHistograms := emptyProfileComponents,
    fCorrelationsInputHistograms := cexCorrelationsProfile,
    fCorrelationsCalibrationHistograms := emptyCorrelationsProfile,
    fQANotValidatedBin := none, fQATwistQnAverageHistogram := none,
    fQARescaleQnAverageHistogram := none,
    fCorrectedQnVector := zeroQnVector, fTwistCorrectedQnVector := zeroQnVector,
    fRescaleCorrectedQnVector := zeroQnVector, fInputQnVector := zeroQnVector,
    fBCurrentQnVector := zeroQnVector, fCCurrentQnVector := zeroQnVector }

/-- Fixture: a TwistAndRescale step in the APPLY state using the
double-harmonic method over a validated all-zero profile, with both the twist
and the rescale sub-steps disabled. -/
def cexTwistAndRescaleOff : TwistAndRescale :=
  { cexTwistAndRescale with
    fTwistAndRescaleMethod := TwistAndRescaleMethod.TWRESCALE_doubleHarmonic,
    fApplyTwist := false, fApplyRescale := false,
    fDoubleHarmonicInputHistograms := validatedZeroProfileComponents }

/-- Fixture: a TwistAndRescale step in the APPLY state using the
double-harmonic method over a validated all-zero profile with both sub-steps
enabled (the identity-transform scenario). -/
def cexTwistAndRescaleZero : TwistAndRescale :=
  { cexTwistAndRescale with
    fTwistAndRescaleMethod := TwistAndRescaleMethod.TWRESCALE_doubleHarmonic,
    fDoubleHarmonicInputHistograms := validatedZeroProfileComponents }

/-- Fixture: a Recentering step in the APPLY state whose event-class bin is
not validated and whose not-validated QA histogram was never created. -/
def cexRecentering : Recentering :=
  { fState := State.APPLY, fApplyWidthEqualization := false,
    fInputHistograms := emptyProfileComponents,
    fCalibrationHistograms := emptyProfileComponents,
    fQAQnAverageHistogram := none, fQANotValidatedBin := none,
    fCorrectedQnVector := zeroQnVector, fInputQnVector := zeroQnVector }

/-- Fixture: a channelized ingress profile whose bins are all unvalidated. -/
def emptyIngress : ProfileChannelizedIngress :=
  { getBin := fun _ _ => 0, binContentValidated := fun _ => false,
    binContent := fun _ => 0, binError := fun _ => 0,
    grpBin := fun _ _ => 0, grpBinContent := fun _ => 0 }

/-- Fixture: a channelized ingress profile whose bins are all validated with
zero average. -/
def cexValidatedZeroIngress : ProfileChannelizedIngress :=
  { emptyIngress with binContentValidated := fun _ => true }

/-- Fixture: a GainEqualization step in the CALIBRATION state with the
AVERAGE method. -/
def cexGainEqualization : GainEqualization :=
  { fState := State.CALIBRATION, fEqualizationMethod := Method.AVERAGE,
    fShift := 0, fScale := 1, fUseChannelGroupsWeights := false,
    fHardCodedWeights := none, fInputHistograms := emptyIngress,
    fCalibrationFills := [], fQAMultiplicityBefore := none,
    fQAMultiplicityAfter := none, fQANotValidatedBin := none }

/-- Fixture: a GainEqualization step in the APPLY state with the AVERAGE
method over validated bins of zero average, with a created not-validated QA
histogram. -/
def cexGainEqualizationAvg : GainEqualization :=
  { cexGainEqualization with
    fState := State.APPLY,
    fInputHistograms := cexValidatedZeroIngress,
    fQANotValidatedBin := some { fills := [] } }

/-- Fixture: a one-channel data bank with raw weight 5. -/
def cexBank : List DataVector := [{ id := 0, eqWeight := 5 }]

/-- Fixture: a validated component profile whose X contents are so large that
A+ = 1 + X2n exceeds the stability threshold. -/
def thresholdProfileComponents : CorrectionProfileComponents :=
  { validatedZeroProfileComponents with xBinContent := fun _ _ => 1000000000 }

/-! Helper lemmas about the state machine. -/

/-- No operation produces CALIBRATION from a different state. -/
theorem stepTransition_eq_calibration (s : State) (op : StepOp)
    (h : stepTransition s op = State.CALIBRATION) : s = State.CALIBRATION := by
  cases op with
  | attachInput b => cases b <;> simp_all [stepTransition]
  | calibrationFrozen => cases s <;> simp_all [stepTransition]
  | afterInputsAttach m b => cases m <;> cases b <;> cases s <;> simp_all [stepTransition]

/-- PASSIVE is only produced by the failed correlations-method prerequisite
check, or preserved from PASSIVE itself. -/
theorem stepTransition_eq_passive (s : State) (op : StepOp)
    (h : stepTransition s op = State.PASSIVE) :
    s = State.PASSIVE ∨
      op = StepOp.afterInputsAttach TwistAndRescaleMethod.TWRESCALE_correlations false := by
  cases op with
  | attachInput b => cases b <;> simp_all [stepTransition]
  | calibrationFrozen => cases s <;> simp_all [stepTransition]
  | afterInputsAttach m b => cases m <;> cases b <;> cases s <;> simp_all [stepTransition]

/-- Once away from CALIBRATION, a correction step never returns to it. -/
theorem foldl_stepTransition_ne_calibration (ops : List StepOp) (s : State)
    (h : s ≠ State.CALIBRATION) : ops.foldl stepTransition s ≠ State.CALIBRATION := by
  induction ops generalizing s with
  | nil => simpa using h
  | cons op rest ih =>
    simp only [List.foldl_cons]
    exact ih (stepTransition s op)
      (fun hc => h (stepTransition_eq_calibration s op hc))

/-- If a run of operations ends PASSIVE, either it started PASSIVE or the
failed correlations-method prerequisite check occurred. -/
theorem foldl_stepTransition_passive (ops : List StepOp) (s : State)
    (h : ops.foldl stepTransition s = State.PASSIVE) :
    s = State.PASSIVE ∨
      StepOp.afterInputsAttach TwistAndRescaleMethod.TWRESCALE_correlations false ∈ ops := by
  induction ops generalizing s with
  | nil => exact Or.inl h
  | cons op rest ih =>
    simp only [List.foldl_cons] at h
    rcases ih (stepTransition s op) h with h1 | h2
    · rcases stepTransition_eq_passive s op h1 with hs | hop
      · exact Or.inl hs
      · exact Or.inr (by simp [hop])
    · exact Or.inr (List.mem_cons_of_mem _ h2)

/-- C6: the state of every correction stage starts at CALIBRATION, a
successful AttachInput moves it to APPLYCOLLECT, once APPLYCOLLECT or APPLY is
reached the state never becomes CALIBRATION again within the run, and PASSIVE
is entered only through the correlations-method prerequisite check performed
after inputs are attached. -/
theorem correction_state_machine_invariants :
    runStates [] = State.CALIBRATION
    ∧ (∀ s : State, stepTransition s (StepOp.attachInput true) = State.APPLYCOLLECT)
    ∧ (∀ ops ops2 : List StepOp,
        runStates ops = State.APPLYCOLLECT ∨ runStates ops = State.APPLY →
        runStates (ops ++ ops2) ≠ State.CALIBRATION)
    ∧ (∀ ops : List StepOp, runStates ops = State.PASSIVE →
        StepOp.afterInputsAttach TwistAndRescaleMethod.TWRESCALE_correlations false ∈ ops) := by
  refine ⟨rfl, fun s => by cases s <;> rfl, ?_, ?_⟩
  · intro ops ops2 h
    have h1 : runStates ops ≠ State.CALIBRATION := by
      rcases h with h | h <;> simp [h]
    have h2 : runStates (ops ++ ops2) = ops2.foldl stepTransition (runStates ops) := by
      simp [runStates, List.foldl_append]
    rw [h2]
    exact foldl_stepTransition_ne_calibration ops2 (runStates ops) h1
  · intro ops h
    rcases foldl_stepTransition_passive ops State.CALIBRATION h with h1 | h1
    · cases h1
    · exact h1

/-! Helper lemmas about Profile accumulation and merging. -/

/-- The summed statistics of a fold of Update calls. -/
theorem foldl_update_stats (sq : ℚ → ℚ) (l : List ℚ) (p : Profile) :
    (l.foldl (Profile.Update sq) p).sum = p.sum + l.sum
    ∧ (l.foldl (Profile.Update sq) p).sum2 = p.sum2 + (l.map (fun v => v * v)).sum
    ∧ (l.foldl (Profile.Update sq) p).entries = p.entries + l.length := by
  induction l generalizing p with
  | nil => simp
  | cons v rest ih =>
    simp only [List.foldl_cons, List.sum_cons, List.map_cons, List.length_cons]
    obtain ⟨h1, h2, h3⟩ := ih (Profile.Update sq p v)
    refine ⟨?_, ?_, ?_⟩
    · rw [h1]; simp [Profile.Update]; ring
    · rw [h2]; simp [Profile.Update]; ring
    · rw [h3]; simp [Profile.Update]; ring

/-- A nonempty fold of Update calls ends in an Update call. -/
theorem foldl_update_ne_nil (sq : ℚ → ℚ) (l : List ℚ) (p : Profile) (h : l ≠ []) :
    ∃ q v, l.foldl (Profile.Update sq) p = Profile.Update sq q v := by
  induction l generalizing p with
  | nil => exact absurd rfl h
  | cons x rest ih =>
    cases rest with
    | nil => exact ⟨p, x, rfl⟩
    | cons y t =>
      have h2 := ih (Profile.Update sq p x) (by simp)
      simpa using h2

/-- After any Update call the mean is the sum over the entries and the error
is Sigma of the current statistics. -/
theorem update_coherent (sq : ℚ → ℚ) (q : Profile) (v : ℚ) :
    (Profile.Update sq q v).mean
      = (Profile.Update sq q v).sum / (((Profile.Update sq q v).entries : ℤ) : ℚ)
    ∧ (Profile.Update sq q v).error
      = Statistics.Sigma sq (Profile.Update sq q v).mean (Profile.Update sq q v).sum2
          (((Profile.Update sq q v).entries : ℤ) : ℚ) :=
  ⟨rfl, rfl⟩

/-- The statistical fields of a merged Profile, written out. -/
theorem merge_fields (sq : ℚ → ℚ) (a b : Profile) :
    (Merge sq a b).mean = (a.sum + b.sum) / (((a.entries + b.entries : ℤ)) : ℚ)
    ∧ (Merge sq a b).sum = a.sum + b.sum
    ∧ (Merge sq a b).sum2 = a.sum2 + b.sum2
    ∧ (Merge sq a b).entries = a.entries + b.entries
    ∧ (Merge sq a b).error
      = Statistics.Sigma sq ((a.sum + b.sum) / (((a.entries + b.entries : ℤ)) : ℚ))
          (a.sum2 + b.sum2) (((a.entries + b.entries : ℤ)) : ℚ) :=
  ⟨rfl, rfl, rfl, rfl, rfl⟩

/-- C8: the binned-statistics merge adds the entry counts, its mean follows the
weighted-merge rule (w1 m1 + w2 m2) / (w1 + w2), merging two independently
accumulated Profiles agrees with accumulating the concatenated sample on every
statistical field (mean, sum, sum2, entries, error), and the merge is
commutative and associative on those statistical fields. -/
theorem profile_merge_law :
    (∀ (sq : ℚ → ℚ) (a b : Profile), (Merge sq a b).entries = a.entries + b.entries)
    ∧ (∀ (sq : ℚ → ℚ) (a b : Profile),
        0 < a.entries → 0 < b.entries →
        a.mean = a.sum / ((a.entries : ℤ) : ℚ) → b.mean = b.sum / ((b.entries : ℤ) : ℚ) →
        (Merge sq a b).mean
          = (((a.entries : ℤ) : ℚ) * a.mean + ((b.entries : ℤ) : ℚ) * b.mean) /
            (((a.entries : ℤ) : ℚ) + ((b.entries : ℤ) : ℚ)))
    ∧ (∀ (sq : ℚ → ℚ) (l1 l2 : List ℚ), l1 ≠ [] →
        (Merge sq (accumulate sq l1) (accumulate sq l2)).mean
            = (accumulate sq (l1 ++ l2)).mean
        ∧ (Merge sq (accumulate sq l1) (accumulate sq l2)).sum
            = (accumulate sq (l1 ++ l2)).sum
        ∧ (Merge sq (accumulate sq l1) (accumulate sq l2)).sum2
            = (accumulate sq (l1 ++ l2)).sum2
        ∧ (Merge sq (accumulate sq l1) (accumulate sq l2)).entries
            = (accumulate sq (l1 ++ l2)).entries
        ∧ (Merge sq (accumulate sq l1) (accumulate sq l2)).error
            = (accumulate sq (l1 ++ l2)).error)
    ∧ (∀ (sq : ℚ → ℚ) (a b : Profile), Merge sq a b = Merge sq b a)
    ∧ (∀ (sq : ℚ → ℚ) (a b c : Profile),
        (Merge sq (Merge sq a b) c).mean = (Merge sq a (Merge sq b c)).mean
        ∧ (Merge sq (Merge sq a b) c).sum = (Merge sq a (Merge sq b c)).sum
        ∧ (Merge sq (Merge sq a b) c).sum2 = (Merge sq a (Merge sq b c)).sum2
        ∧ (Merge sq (Merge sq a b) c).entries = (Merge sq a (Merge sq b c)).entries
        ∧ (Merge sq (Merge sq a b) c).error = (Merge sq a (Merge sq b c)).error) := by
  refine ⟨fun sq a b => rfl, ?_, ?_, ?_, ?_⟩
  · intro sq a b ha hb hma hmb
    have ha0 : ((a.entries : ℤ) : ℚ) ≠ 0 := by
      exact_mod_cast ne_of_gt (by exact_mod_cast ha : (0 : ℤ) < a.entries)
    have hb0 : ((b.entries : ℤ) : ℚ) ≠ 0 := by
      exact_mod_cast ne_of_gt (by exact_mod_cast hb : (0 : ℤ) < b.entries)
    rw [(merge_fields sq a b).1, hma, hmb]
    push_cast
    field_simp
  · intro sq l1 l2 h1
    have hne : l1 ++ l2 ≠ [] := by
      intro hc
      exact h1 (List.append_eq_nil.mp hc).1
    obtain ⟨q, v, hqv⟩ := foldl_update_ne_nil sq (l1 ++ l2) Profile.empty hne
    have hsum : (accumulate sq (l1 ++ l2)).sum
        = (accumulate sq l1).sum + (accumulate sq l2).sum := by
      have u := foldl_update_stats sq (l1 ++ l2) Profile.empty
      have u1 := foldl_update_stats sq l1 Profile.empty
      have u2 := foldl_update_stats sq l2 Profile.empty
      simp only [accumulate, Profile.empty] at u u1 u2 ⊢
      rw [u.1, u1.1, u2.1]
      simp
    have hsum2 : (accumulate sq (l1 ++ l2)).sum2
        = (accumulate sq l1).sum2 + (accumulate sq l2).sum2 := by
      have u := foldl_update_stats sq (l1 ++ l2) Profile.empty
      have u1 := foldl_update_stats sq l1 Profile.empty
      have u2 := foldl_update_stats sq l2 Profile.empty
      simp only [accumulate, Profile.empty] at u u1 u2 ⊢
      rw [u.2.1, u1.2.1, u2.2.1]
      simp
    have hent : (accumulate sq (l1 ++ l2)).entries
        = (accumulate sq l1).entries + (accumulate sq l2).entries := by
      have u := foldl_update_stats sq (l1 ++ l2) Profile.empty
      have u1 := foldl_update_stats sq l1 Profile.empty
      have u2 := foldl_update_stats sq l2 Profile.empty
      simp only [accumulate, Profile.empty] at u u1 u2 ⊢
      rw [u.2.2, u1.2.2, u2.2.2]
      simp [List.length_append]
    have hmean : (accumulate sq (l1 ++ l2)).mean
        = (accumulate sq (l1 ++ l2)).sum / (((accumulate sq (l1 ++ l2)).entries : ℤ) : ℚ) := by
      simp only [accumulate] at hqv ⊢
      rw [hqv]
      exact (update_coherent sq q v).1
    have herr : (accumulate sq (l1 ++ l2)).error
        = Statistics.Sigma sq (accumulate sq (l1 ++ l2)).mean
            (accumulate sq (l1 ++ l2)).sum2 (((accumulate sq (l1 ++ l2)).entries : ℤ) : ℚ) := by
      simp only [accumulate] at hqv ⊢
      rw [hqv]
      exact (update_coherent sq q v).2
    refine ⟨?_, ?_, ?_, ?_, ?_⟩
    · rw [(merge_fields sq _ _).1, hmean, hsum, hent]
    · rw [(merge_fields sq _ _).2.1, hsum]
    · rw [(merge_fields sq _ _).2.2.1, hsum2]
    · rw [(merge_fields sq _ _).2.2.2.1, hent]
    · rw [(merge_fields sq _ _).2.2.2.2, herr, hmean, hsum, hsum2, hent]
  · intro sq a b
    have he : a.entries + b.entries = b.entries + a.entries := by ring
    have hs : a.sum + b.sum = b.sum + a.sum := by ring
    have hs2 : a.sum2 + b.sum2 = b.sum2 + a.sum2 := by ring
    have hw : a.mult_weight * ((a.entries : ℤ) : ℚ) + b.mult_weight * ((b.entries : ℤ) : ℚ)
        = b.mult_weight * ((b.entries : ℤ) : ℚ) + a.mult_weight * ((a.entries : ℤ) : ℚ) := by
      ring
    have hc : ((a.entries : ℤ) : ℚ) + ((b.entries : ℤ) : ℚ)
        = ((b.entries : ℤ) : ℚ) + ((a.entries : ℤ) : ℚ) := by ring
    simp only [Merge, Profile.mk6]
    rw [he, hs, hs2, hw, hc]
  · intro sq a b c
    have he : a.entries + b.entries + c.entries = a.entries + (b.entries + c.entries) := by
      ring
    have hs : a.sum + b.sum + c.sum = a.sum + (b.sum + c.sum) := by ring
    have hs2 : a.sum2 + b.sum2 + c.sum2 = a.sum2 + (b.sum2 + c.sum2) := by ring
    refine ⟨?_, ?_, ?_, ?_, ?_⟩
    · rw [(merge_fields sq _ _).1, (merge_fields sq _ _).1,
        (merge_fields sq _ _).2.1, (merge_fields sq _ _).2.1,
        (merge_fields sq _ _).2.2.2.1, (merge_fields sq _ _).2.2.2.1, he, hs]
    · rw [(merge_fields sq _ _).2.1, (merge_fields sq _ _).2.1,
        (merge_fields sq _ _).2.1, (merge_fields sq _ _).2.1, hs]
    · rw [(merge_fields sq _ _).2.2.1, (merge_fields sq _ _).2.2.1,
        (merge_fields sq _ _).2.2.1, (merge_fields sq _ _).2.2.1, hs2]
    · rw [(merge_fields sq _ _).2.2.2.1, (merge_fields sq _ _).2.2.2.1,
        (merge_fields sq _ _).2.2.2.1, (merge_fields sq _ _).2.2.2.1, he]
    · rw [(merge_fields sq _ _).2.2.2.2, (merge_fields sq _ _).2.2.2.2,
        (merge_fields sq _ _).2.1, (merge_fields sq _ _).2.1,
        (merge_fields sq _ _).2.2.1, (merge_fields sq _ _).2.2.1,
        (merge_fields sq _ _).2.2.2.1, (merge_fields sq _ _).2.2.2.1, he, hs, hs2]

/-- Witness for C8: merging the accumulations of the samples 1, 2 and 4 agrees
with accumulating all three samples at once. -/
theorem profile_merge_law_witness :
    (Merge ratSqrt (accumulate ratSqrt [1, 2]) (accumulate ratSqrt [4])).mean
      = (accumulate ratSqrt ([1, 2] ++ [4])).mean
    ∧ (Merge ratSqrt (accumulate ratSqrt [1, 2]) (accumulate ratSqrt [4])).mean = 7 / 3 := by
  have h := (profile_merge_law.2.2.1 ratSqrt [1, 2] [4] (by decide)).1
  refine ⟨h, ?_⟩
  rw [(merge_fields ratSqrt _ _).1]
  norm_num [accumulate, Profile.Update, Profile.empty]

/-- C10: Recentering increments its not-validated counter on a non-validated
bin only when the not-validated-entries QA histogram was previously created;
when it is absent the unvalidated event is skipped silently with no count
recorded, while the vector still passes through unmodified. -/
theorem recentering_nve_counter_gated :
    ∀ (s : Recentering) (det : SubEvent) (vc : List ℚ),
      s.fState = State.APPLYCOLLECT ∨ s.fState = State.APPLY →
      det.currentQnVector.good = true →
      s.fInputHistograms.binContentValidated (s.fInputHistograms.getBin vc) = false →
      (s.fQANotValidatedBin = none →
        (Recentering.ProcessCorrections s det vc).1.fQANotValidatedBin = none)
      ∧ (∀ n, s.fQANotValidatedBin = some n →
        (Recentering.ProcessCorrections s det vc).1.fQANotValidatedBin
          = some (n.fill vc 1))
      ∧ (Recentering.ProcessCorrections s det vc).1.fCorrectedQnVector.qx
          = det.currentQnVector.qx
      ∧ (Recentering.ProcessCorrections s det vc).1.fCorrectedQnVector.qy
          = det.currentQnVector.qy := by
  intro s det vc hstate hgood hval
  obtain ⟨st, aw, ih, ch, qa, nve, cv, iv⟩ := s
  simp only at hstate hgood hval
  rcases hstate with h | h <;> subst h <;>
    refine ⟨?_, ?_, ?_, ?_⟩ <;>
    simp [Recentering.ProcessCorrections, hgood, hval, CorrectionQnVector.setFrom] <;>
    intro n hn <;> simp [hn]

/-- Witness for C10 at a concrete Recentering state without the not-validated
QA histogram. -/
theorem recentering_nve_counter_gated_witness :
    (Recentering.ProcessCorrections cexRecentering cexSubEvent []).1.fQANotValidatedBin
        = none
    ∧ (Recentering.ProcessCorrections cexRecentering cexSubEvent []).1.fCorrectedQnVector.qx
        = cexSubEvent.currentQnVector.qx := by
  have h := recentering_nve_counter_gated cexRecentering cexSubEvent []
    (Or.inr rfl) rfl rfl
  exact ⟨h.1 rfl, h.2.2.1⟩

/-- C4: for Recentering and TwistAndRescale in an applying state, when the
input flow vector is marked not-good the output corrected vector is marked
not-good and its Qx/Qy values are unchanged from the last reset (zero): no
arithmetic correction is attempted. -/
theorem bad_quality_propagation :
    (∀ (s : Recentering) (det : SubEvent) (vc : List ℚ),
      s.fState = State.APPLYCOLLECT ∨ s.fState = State.APPLY →
      det.currentQnVector.good = false →
      (Recentering.ProcessCorrections s.ClearCorrectionStep det vc).1.fCorrectedQnVector.good
          = false
      ∧ ∀ h : Int,
        (Recentering.ProcessCorrections s.ClearCorrectionStep det vc).1.fCorrectedQnVector.qx h
            = 0
        ∧ (Recentering.ProcessCorrections s.ClearCorrectionStep det vc).1.fCorrectedQnVector.qy h
            = 0)
    ∧ (∀ (sq : ℚ → ℚ) (s : TwistAndRescale) (det : SubEvent) (vc : List ℚ),
      s.fState = State.APPLYCOLLECT ∨ s.fState = State.APPLY →
      det.currentQnVector.good = false →
      (TwistAndRescale.ProcessCorrections sq s.ClearCorrectionStep det
          vc).1.fCorrectedQnVector.good = false
      ∧ ∀ h : Int,
        (TwistAndRescale.ProcessCorrections sq s.ClearCorrectionStep det
            vc).1.fCorrectedQnVector.qx h = 0
        ∧ (TwistAndRescale.ProcessCorrections sq s.ClearCorrectionStep det
            vc).1.fCorrectedQnVector.qy h = 0) := by
  constructor
  · intro s det vc hstate hgood
    obtain ⟨st, aw, ih, ch, qa, nve, cv, iv⟩ := s
    simp only at hstate hgood
    rcases hstate with h | h <;> subst h <;>
      exact ⟨by simp [Recentering.ProcessCorrections, Recentering.ClearCorrectionStep,
          hgood, CorrectionQnVector.setGood, CorrectionQnVector.reset],
        fun h => ⟨by simp [Recentering.ProcessCorrections, Recentering.ClearCorrectionStep,
            hgood, CorrectionQnVector.setGood, CorrectionQnVector.reset],
          by simp [Recentering.ProcessCorrections, Recentering.ClearCorrectionStep,
            hgood, CorrectionQnVector.setGood, CorrectionQnVector.reset]⟩⟩
  · intro sq s det vc hstate hgood
    obtain ⟨st, mth, aT, aR, dhin, dhcal, coin, cocal, nve, qat, qar, cv, tv, rv, iv, bv, cvv⟩ := s
    simp only at hstate hgood
    rcases hstate with h | h <;> subst h <;> cases mth <;>
      exact ⟨by simp [TwistAndRescale.ProcessCorrections, TwistAndRescale.ClearCorrectionStep,
          hgood, CorrectionQnVector.setGood, CorrectionQnVector.reset],
        fun h => ⟨by simp [TwistAndRescale.ProcessCorrections,
            TwistAndRescale.ClearCorrectionStep, hgood, CorrectionQnVector.setGood,
            CorrectionQnVector.reset],
          by simp [TwistAndRescale.ProcessCorrections, TwistAndRescale.ClearCorrectionStep,
            hgood, CorrectionQnVector.setGood, CorrectionQnVector.reset]⟩⟩

/-- Witness for C4 at a concrete not-good input vector. -/
theorem bad_quality_propagation_witness :
    (Recentering.ProcessCorrections cexRecentering.ClearCorrectionStep
        { cexSubEvent with currentQnVector := zeroQnVector } []).1.fCorrectedQnVector.good
      = false
    ∧ (TwistAndRescale.ProcessCorrections ratSqrt cexTwistAndRescale.ClearCorrectionStep
        { cexSubEvent with currentQnVector := zeroQnVector } []).1.fCorrectedQnVector.qx 2
      = 0 := by
  refine ⟨(bad_quality_propagation.1 cexRecentering
      { cexSubEvent with currentQnVector := zeroQnVector } [] (Or.inr rfl) rfl).1, ?_⟩
  exact ((bad_quality_propagation.2 ratSqrt cexTwistAndRescale
      { cexSubEvent with currentQnVector := zeroQnVector } [] (Or.inr rfl) rfl).2 2).1

/-- C3 (amended): in an applying state with a good-quality input vector, a
non-validated event-class bin makes ProcessCorrections pass the input Qx/Qy
through unchanged for every stage; the not-validated counter is incremented by
exactly one per call provided the not-validated-entries QA histogram was
created. -/
theorem nonvalidated_bin_passthrough_counter :
    (∀ (s : Recentering) (det : SubEvent) (vc : List ℚ),
      s.fState = State.APPLYCOLLECT ∨ s.fState = State.APPLY →
      det.currentQnVector.good = true →
      s.fInputHistograms.binContentValidated (s.fInputHistograms.getBin vc) = false →
      (Recentering.ProcessCorrections s det vc).1.fCorrectedQnVector.qx
          = det.currentQnVector.qx
      ∧ (Recentering.ProcessCorrections s det vc).1.fCorrectedQnVector.qy
          = det.currentQnVector.qy
      ∧ (∀ n, s.fQANotValidatedBin = some n →
          ∃ m, (Recentering.ProcessCorrections s det vc).1.fQANotValidatedBin = some m
            ∧ m.fills.length = n.fills.length + 1))
    ∧ (∀ (sq : ℚ → ℚ) (s : TwistAndRescale) (det : SubEvent) (vc : List ℚ),
      s.fState = State.APPLYCOLLECT ∨ s.fState = State.APPLY →
      s.fTwistAndRescaleMethod = TwistAndRescaleMethod.TWRESCALE_doubleHarmonic →
      det.currentQnVector.good = true →
      s.fDoubleHarmonicInputHistograms.binContentValidated
        (s.fDoubleHarmonicInputHistograms.getBin vc) = false →
      (TwistAndRescale.ProcessCorrections sq s det vc).1.fCorrectedQnVector.qx
          = det.currentQnVector.qx
      ∧ (TwistAndRescale.ProcessCorrections sq s det vc).1.fCorrectedQnVector.qy
          = det.currentQnVector.qy
      ∧ (∀ n, s.fQANotValidatedBin = some n →
          ∃ m, (TwistAndRescale.ProcessCorrections sq s det vc).1.fQANotValidatedBin = some m
            ∧ m.fills.length = n.fills.length + 1))
    ∧ (∀ (sq : ℚ → ℚ) (s : TwistAndRescale) (det : SubEvent) (vc : List ℚ),
      s.fState = State.APPLYCOLLECT ∨ s.fState = State.APPLY →
      s.fTwistAndRescaleMethod = TwistAndRescaleMethod.TWRESCALE_correlations →
      det.currentQnVector.good = true →
      s.fCorrelationsInputHistograms.binContentValidated
        (s.fCorrelationsInputHistograms.getBin vc) = false →
      (TwistAndRescale.ProcessCorrections sq s det vc).1.fCorrectedQnVector.qx
          = det.currentQnVector.qx
      ∧ (TwistAndRescale.ProcessCorrections sq s det vc).1.fCorrectedQnVector.qy
          = det.currentQnVector.qy
      ∧ (∀ n, s.fQANotValidatedBin = some n →
          ∃ m, (TwistAndRescale.ProcessCorrections sq s det vc).1.fQANotValidatedBin = some m
            ∧ m.fills.length = n.fills.length + 1)) := by
  refine ⟨?_, ?_, ?_⟩
  · intro s det vc hstate hgood hval
    obtain ⟨st, aw, ih, ch, qa, nve, cv, iv⟩ := s
    simp only at hstate hgood hval
    rcases hstate with h | h <;> subst h <;>
      exact ⟨by simp [Recentering.ProcessCorrections, hgood, hval, CorrectionQnVector.setFrom],
        by simp [Recentering.ProcessCorrections, hgood, hval, CorrectionQnVector.setFrom],
        fun n hn => ⟨n.fill vc 1,
          by simp at hn; simp [Recentering.ProcessCorrections, hgood, hval, hn],
          by simp [HistogramSparse.fill]⟩⟩
  · intro sq s det vc hstate hmth hgood hval
    obtain ⟨st, mth, aT, aR, dhin, dhcal, coin, cocal, nve, qat, qar, cv, tv, rv, iv, bv, cvv⟩ := s
    simp only at hstate hmth hgood hval
    subst hmth
    rcases hstate with h | h <;> subst h <;>
      exact ⟨by simp [TwistAndRescale.ProcessCorrections, hgood, hval, CorrectionQnVector.setFrom],
        by simp [TwistAndRescale.ProcessCorrections, hgood, hval, CorrectionQnVector.setFrom],
        fun n hn => ⟨n.fill vc 1,
          by simp at hn; simp [TwistAndRescale.ProcessCorrections, hgood, hval, hn],
          by simp [HistogramSparse.fill]⟩⟩
  · intro sq s det vc hstate hmth hgood hval
    obtain ⟨st, mth, aT, aR, dhin, dhcal, coin, cocal, nve, qat, qar, cv, tv, rv, iv, bv, cvv⟩ := s
    simp only at hstate hmth hgood hval
    subst hmth
    rcases hstate with h | h <;> subst h <;>
      exact ⟨by simp [TwistAndRescale.ProcessCorrections, hgood, hval, CorrectionQnVector.setFrom],
        by simp [TwistAndRescale.ProcessCorrections, hgood, hval, CorrectionQnVector.setFrom],
        fun n hn => ⟨n.fill vc 1,
          by simp at hn; simp [TwistAndRescale.ProcessCorrections, hgood, hval, hn],
          by simp [HistogramSparse.fill]⟩⟩

/-- Witness for C3 at a concrete Recentering state whose not-validated QA
histogram exists. -/
theorem nonvalidated_bin_passthrough_counter_witness :
    (Recentering.ProcessCorrections
        { cexRecentering with fQANotValidatedBin := some { fills := [] } }
        cexSubEvent []).1.fCorrectedQnVector.qx = cexSubEvent.currentQnVector.qx
    ∧ ∃ m, (Recentering.ProcessCorrections
        { cexRecentering with fQANotValidatedBin := some { fills := [] } }
        cexSubEvent []).1.fQANotValidatedBin = some m ∧ m.fills.length = 0 + 1 := by
  have h := nonvalidated_bin_passthrough_counter.1
    { cexRecentering with fQANotValidatedBin := some { fills := [] } }
    cexSubEvent [] (Or.inr rfl) rfl rfl
  exact ⟨h.1, h.2.2 { fills := [] } rfl⟩

/-- C3 counterexample: a concrete applying-state call on a non-validated bin
with the not-validated-entries QA histogram never created: the vector passes
through but no count of any kind is recorded, so the not-validated counter is
not incremented by 1. -/
theorem recentering_nonvalidated_no_histogram_no_count :
    cexRecentering.fState = State.APPLY
    ∧ cexRecentering.fQANotValidatedBin = none
    ∧ cexRecentering.fInputHistograms.binContentValidated
        (cexRecentering.fInputHistograms.getBin []) = false
    ∧ (Recentering.ProcessCorrections cexRecentering cexSubEvent []).1.fQANotValidatedBin
        = none
    ∧ (Recentering.ProcessCorrections cexRecentering cexSubEvent []).1
        = { cexRecentering with
            fCorrectedQnVector := cexRecentering.fCorrectedQnVector.setFrom
              cexSubEvent.currentQnVector }
    ∧ (Recentering.ProcessCorrections cexRecentering cexSubEvent []).2.2 = true :=
  ⟨rfl, rfl, rfl, rfl, rfl, rfl⟩

/-- Appending one element per list item in a fold is mapping. -/
theorem foldl_append_map {α β : Type} (f : α → β) (bank : List α) (l0 : List β) :
    bank.foldl (fun l dv => l ++ [f dv]) l0 = l0 ++ bank.map f := by
  induction bank generalizing l0 with
  | nil => simp
  | cons x t ih => simp [ih]

/-- Lengths of the fill traces of the per-harmonic FillX/FillY loop. -/
theorem foldl_fillXY_lengths (qxf qyf : Int → ℚ) (vc : List ℚ) (hs : List Int)
    (hgm : CorrectionProfileComponents) :
    (hs.foldl (fun hgm harmonic =>
        (hgm.fillX harmonic vc (qxf harmonic)).fillY harmonic vc (qyf harmonic))
      hgm).xFills.length = hgm.xFills.length + hs.length
    ∧ (hs.foldl (fun hgm harmonic =>
        (hgm.fillX harmonic vc (qxf harmonic)).fillY harmonic vc (qyf harmonic))
      hgm).yFills.length = hgm.yFills.length + hs.length := by
  induction hs generalizing hgm with
  | nil => simp
  | cons h t ih =>
    obtain ⟨ih1, ih2⟩ := ih ((hgm.fillX h vc (qxf h)).fillY h vc (qyf h))
    constructor
    · rw [List.foldl_cons, ih1]
      simp [CorrectionProfileComponents.fillX, CorrectionProfileComponents.fillY]
      omega
    · rw [List.foldl_cons, ih2]
      simp [CorrectionProfileComponents.fillX, CorrectionProfileComponents.fillY]
      omega

/-- Lengths of the fill traces of the twice-the-harmonic FillX/FillY loop of
the double-harmonic data collection. -/
theorem foldl_fillXY_double_lengths (qxf qyf : Int → ℚ) (vc : List ℚ) (hs : List Int)
    (hgm : CorrectionProfileComponents) :
    (hs.foldl (fun hgm harmonic =>
        (hgm.fillX (harmonic * 2) vc (qxf harmonic)).fillY (harmonic * 2) vc (qyf harmonic))
      hgm).xFills.length = hgm.xFills.length + hs.length := by
  induction hs generalizing hgm with
  | nil => simp
  | cons h t ih =>
    rw [List.foldl_cons, ih ((hgm.fillX (h * 2) vc (qxf h)).fillY (h * 2) vc (qyf h))]
    simp [CorrectionProfileComponents.fillX, CorrectionProfileComponents.fillY]
    omega

/-- The APPLY part of GainEqualization::ProcessCorrections never touches the
calibration fill trace. -/
theorem applyBody_fCalibrationFills (s : GainEqualization) (bank : List DataVector)
    (vc : List ℚ) : (s.applyBody bank vc).1.fCalibrationFills = s.fCalibrationFills := rfl

/-- C2 (amended): GainEqualization's ProcessDataCollection never touches any
state, in any stage state; its calibration accumulation happens inside
ProcessCorrections, exactly in states CALIBRATION and APPLYCOLLECT (one fill
per bank entry) and never in APPLY or PASSIVE; for Recentering and
TwistAndRescale, ProcessDataCollection accumulates into the stage calibration
table exactly in CALIBRATION and APPLYCOLLECT (given good-quality collection
input) and leaves it untouched in APPLY and PASSIVE. -/
theorem processDataCollection_accumulation_states :
    (∀ (s : GainEqualization) (vc : List ℚ),
      (GainEqualization.ProcessDataCollection s vc).1 = s)
    ∧ (∀ (s : GainEqualization) (bank : List DataVector) (vc : List ℚ),
      s.fState = State.CALIBRATION ∨ s.fState = State.APPLYCOLLECT →
      (GainEqualization.ProcessCorrections s bank vc).1.fCalibrationFills
        = s.fCalibrationFills ++ bank.map (fun dv => (vc, dv.id, dv.eqWeight)))
    ∧ (∀ (s : GainEqualization) (bank : List DataVector) (vc : List ℚ),
      s.fState = State.APPLY ∨ s.fState = State.PASSIVE →
      (GainEqualization.ProcessCorrections s bank vc).1.fCalibrationFills
        = s.fCalibrationFills)
    ∧ (∀ (s : Recentering) (det : SubEvent) (vc : List ℚ),
      s.fState = State.CALIBRATION ∨ s.fState = State.APPLYCOLLECT →
      s.fInputQnVector.good = true →
      (Recentering.ProcessDataCollection s det vc).1.fCalibrationHistograms.xFills.length
        = s.fCalibrationHistograms.xFills.length + det.harmonics.length)
    ∧ (∀ (s : Recentering) (det : SubEvent) (vc : List ℚ),
      s.fState = State.APPLY ∨ s.fState = State.PASSIVE →
      (Recentering.ProcessDataCollection s det vc).1.fCalibrationHistograms
        = s.fCalibrationHistograms)
    ∧ (∀ (s : TwistAndRescale) (det : SubEvent) (vc : List ℚ),
      s.fState = State.CALIBRATION ∨ s.fState = State.APPLYCOLLECT →
      s.fTwistAndRescaleMethod = TwistAndRescaleMethod.TWRESCALE_doubleHarmonic →
      det.plainQ2nVector.good = true →
      (TwistAndRescale.ProcessDataCollection s det
          vc).1.fDoubleHarmonicCalibrationHistograms.xFills.length
        = s.fDoubleHarmonicCalibrationHistograms.xFills.length + det.harmonics.length)
    ∧ (∀ (s : TwistAndRescale) (det : SubEvent) (vc : List ℚ),
      s.fState = State.CALIBRATION ∨ s.fState = State.APPLYCOLLECT →
      s.fTwistAndRescaleMethod = TwistAndRescaleMethod.TWRESCALE_correlations →
      s.fInputQnVector.good = true → s.fBCurrentQnVector.good = true →
      s.fCCurrentQnVector.good = true →
      (TwistAndRescale.ProcessDataCollection s det
          vc).1.fCorrelationsCalibrationHistograms.fills.length
        = s.fCorrelationsCalibrationHistograms.fills.length + 1)
    ∧ (∀ (s : TwistAndRescale) (det : SubEvent) (vc : List ℚ),
      s.fState = State.APPLY ∨ s.fState = State.PASSIVE →
      (TwistAndRescale.ProcessDataCollection s det vc).1.fDoubleHarmonicCalibrationHistograms
        = s.fDoubleHarmonicCalibrationHistograms
      ∧ (TwistAndRescale.ProcessDataCollection s det vc).1.fCorrelationsCalibrationHistograms
        = s.fCorrelationsCalibrationHistograms) := by
  refine ⟨?_, ?_, ?_, ?_, ?_, ?_, ?_, ?_⟩
  · intro s vc
    obtain ⟨st, m, sh, sc, ug, hw, ih, cf, qb, qa, nv⟩ := s
    cases st <;> rfl
  · intro s bank vc hstate
    obtain ⟨st, m, sh, sc, ug, hw, ih, cf, qb, qa, nv⟩ := s
    simp only at hstate
    rcases hstate with h | h <;> subst h <;>
      simp [GainEqualization.ProcessCorrections, GainEqualization.fillCalibration,
        applyBody_fCalibrationFills,
        foldl_append_map (fun dv : DataVector => (vc, dv.id, dv.eqWeight)) bank]
  · intro s bank vc hstate
    obtain ⟨st, m, sh, sc, ug, hw, ih, cf, qb, qa, nv⟩ := s
    simp only at hstate
    rcases hstate with h | h <;> subst h <;> rfl
  · intro s det vc hstate hgood
    obtain ⟨st, aw, ih, ch, qa, nve, cv, iv⟩ := s
    simp only at hstate hgood
    rcases hstate with h | h <;> subst h <;>
      simp [Recentering.ProcessDataCollection, Recentering.fillCalibration,
        Recentering.fillQA, hgood, foldl_fillXY_lengths iv.qx iv.qy vc det.harmonics ch]
  · intro s det vc hstate
    obtain ⟨st, aw, ih, ch, qa, nve, cv, iv⟩ := s
    simp only at hstate
    rcases hstate with h | h <;> subst h <;> rfl
  · intro s det vc hstate hmth hgood
    obtain ⟨st, mth, aT, aR, dhin, dhcal, coin, cocal, nve, qat, qar, cv, tv, rv, iv, bv, cvv⟩ := s
    simp only at hstate hmth hgood
    subst hmth
    rcases hstate with h | h <;> subst h <;>
      simp [TwistAndRescale.ProcessDataCollection, TwistAndRescale.collect,
        TwistAndRescale.fillQA, hgood,
        foldl_fillXY_double_lengths det.plainQ2nVector.qx det.plainQ2nVector.qy vc
          det.harmonics dhcal]
  · intro s det vc hstate hmth hg1 hg2 hg3
    obtain ⟨st, mth, aT, aR, dhin, dhcal, coin, cocal, nve, qat, qar, cv, tv, rv, iv, bv, cvv⟩ := s
    simp only at hstate hmth hg1 hg2 hg3
    subst hmth
    rcases hstate with h | h <;> subst h <;>
      simp [TwistAndRescale.ProcessDataCollection, TwistAndRescale.collect,
        TwistAndRescale.fillQA, hg1, hg2, hg3, CorrectionProfile3DCorrelations.fill]
  · intro s det vc hstate
    obtain ⟨st, mth, aT, aR, dhin, dhcal, coin, cocal, nve, qat, qar, cv, tv, rv, iv, bv, cvv⟩ := s
    simp only at hstate
    rcases hstate with h | h <;> subst h <;> exact ⟨rfl, rfl⟩

/-- Witness for C2: a concrete CALIBRATION-state GainEqualization call
accumulates one fill per bank entry through ProcessCorrections while its
ProcessDataCollection touches nothing; a concrete CALIBRATION-state
Recentering data collection adds one X fill per harmonic. -/
theorem processDataCollection_accumulation_states_witness :
    (GainEqualization.ProcessDataCollection cexGainEqualization []).1 = cexGainEqualization
    ∧ (GainEqualization.ProcessCorrections cexGainEqualization cexBank []).1.fCalibrationFills
        = [] ++ [([], 0, 5)]
    ∧ (Recentering.ProcessDataCollection
        { cexRecentering with fState := State.CALIBRATION, fInputQnVector := unitQnVector }
        cexSubEvent []).1.fCalibrationHistograms.xFills.length = 0 + 1 := by
  refine ⟨processDataCollection_accumulation_states.1 cexGainEqualization [], ?_, ?_⟩
  · have h := processDataCollection_accumulation_states.2.1 cexGainEqualization cexBank []
      (Or.inl rfl)
    rw [h]
    rfl
  · have h := processDataCollection_accumulation_states.2.2.2.1
      { cexRecentering with fState := State.CALIBRATION, fInputQnVector := unitQnVector }
      cexSubEvent [] (Or.inl rfl) rfl
    rw [h]
    rfl

/-- C2 counterexample: in the CALIBRATION state, GainEqualization's
ProcessDataCollection performs no accumulation whatsoever (the step state,
with its calibration fill trace, is returned unchanged); the accumulation the
claim attributes to ProcessDataCollection is performed by ProcessCorrections
instead. -/
theorem gainEqualization_dataCollection_no_accumulation :
    cexGainEqualization.fState = State.CALIBRATION
    ∧ (GainEqualization.ProcessDataCollection cexGainEqualization []).1 = cexGainEqualization
    ∧ (GainEqualization.ProcessDataCollection cexGainEqualization []).1.fCalibrationFills = []
    ∧ (GainEqualization.ProcessCorrections cexGainEqualization cexBank []).1.fCalibrationFills
        ≠ [] := by
  refine ⟨rfl, rfl, rfl, ?_⟩
  simp [GainEqualization.ProcessCorrections, GainEqualization.fillCalibration,
    cexGainEqualization, cexBank]

/-- Absolute value of one half. -/
theorem abs_half : |(1 : ℚ) / 2| = 1 / 2 := abs_of_nonneg (by norm_num)

/-- The exact rational square root of zero. -/
theorem ratSqrt_zero : ratSqrt 0 = 0 := by
  simp [ratSqrt]

/-- The exact rational square root of one. -/
theorem ratSqrt_one : ratSqrt 1 = 1 := by
  simp [ratSqrt, Nat.sqrt_one]

set_option maxHeartbeats 1000000 in
/-- C1 (amended): for both twist-and-rescale estimation methods, when any of
|A+|, |A-|, |Lambda+|, |Lambda-| exceeds fMaxThreshold the harmonic is skipped
before any write, so its Qx/Qy stay at the input values and processing simply
continues; but when A+ or A- equals exactly zero (with all four guards
passing, reachable with finite values in the correlations method) only the
rescale sub-step is skipped: the twist sub-step has already been applied when
enabled, so the harmonic is not left uncorrected; in every case
ProcessCorrections returns true and never aborts the event. -/
theorem twistAndRescale_degenerate_harmonic_policy :
    (∀ (hgm : CorrectionProfileComponents) (bin : Int) (aT aR : Bool)
        (tr : QnVectorTriple) (h : Int),
      (fMaxThreshold < |dhAplus (hgm.xBinContent (h * 2) bin)|
        ∨ fMaxThreshold < |dhAminus (hgm.xBinContent (h * 2) bin)|
        ∨ fMaxThreshold
            < |dhLambdaPlus (hgm.xBinContent (h * 2) bin) (hgm.yBinContent (h * 2) bin)|
        ∨ fMaxThreshold
            < |dhLambdaMinus (hgm.xBinContent (h * 2) bin) (hgm.yBinContent (h * 2) bin)|) →
      TwistAndRescale.doubleHarmonicStep hgm bin aT aR tr h = tr)
    ∧ (∀ (sq : ℚ → ℚ) (hgm : CorrectionProfile3DCorrelations) (bin : Int) (aT aR : Bool)
        (tr : QnVectorTriple) (h : Int) (XAXC YAYB XAXB XBXC XAYB XBYC : ℚ),
      hgm.xxBinContent DetectorPair.AC h bin = XAXC →
      hgm.yyBinContent DetectorPair.AB h bin = YAYB →
      hgm.xxBinContent DetectorPair.AB h bin = XAXB →
      hgm.xxBinContent DetectorPair.BC h bin = XBXC →
      hgm.xyBinContent DetectorPair.AB h bin = XAYB →
      hgm.xyBinContent DetectorPair.BC h bin = XBYC →
      (fMaxThreshold < |corrAplus sq XAXC XAXB XBXC XAYB XBYC|
        ∨ fMaxThreshold < |corrAminus sq XAXC YAYB XAXB XBXC XAYB XBYC|
        ∨ fMaxThreshold < |corrLambdaPlus XAYB XAXB|
        ∨ fMaxThreshold < |corrLambdaMinus XAYB YAYB|) →
      TwistAndRescale.correlationsStep sq hgm bin aT aR tr h = tr)
    ∧ (∀ (sq : ℚ → ℚ) (hgm : CorrectionProfile3DCorrelations) (bin : Int) (aR : Bool)
        (tr : QnVectorTriple) (h : Int) (XAXC YAYB XAXB XBXC XAYB XBYC : ℚ),
      hgm.xxBinContent DetectorPair.AC h bin = XAXC →
      hgm.yyBinContent DetectorPair.AB h bin = YAYB →
      hgm.xxBinContent DetectorPair.AB h bin = XAXB →
      hgm.xxBinContent DetectorPair.BC h bin = XBXC →
      hgm.xyBinContent DetectorPair.AB h bin = XAYB →
      hgm.xyBinContent DetectorPair.BC h bin = XBYC →
      ¬ fMaxThreshold < |corrAplus sq XAXC XAXB XBXC XAYB XBYC| →
      ¬ fMaxThreshold < |corrAminus sq XAXC YAYB XAXB XBXC XAYB XBYC| →
      ¬ fMaxThreshold < |corrLambdaPlus XAYB XAXB| →
      ¬ fMaxThreshold < |corrLambdaMinus XAYB YAYB| →
      (corrAplus sq XAXC XAXB XBXC XAYB XBYC = 0
        ∨ (¬ corrAplus sq XAXC XAXB XBXC XAYB XBYC = 0
            ∧ corrAminus sq XAXC YAYB XAXB XBXC XAYB XBYC = 0)) →
      TwistAndRescale.correlationsStep sq hgm bin true aR tr h
        = tr.setTwist h
            ((tr.twist.qx h - corrLambdaMinus XAYB YAYB * tr.twist.qy h) /
              (1 - corrLambdaMinus XAYB YAYB * corrLambdaPlus XAYB XAXB))
            ((tr.twist.qy h - corrLambdaPlus XAYB XAXB * tr.twist.qx h) /
              (1 - corrLambdaMinus XAYB YAYB * corrLambdaPlus XAYB XAXB)))
    ∧ (∀ (sq : ℚ → ℚ) (s : TwistAndRescale) (det : SubEvent) (vc : List ℚ),
      s.fState = State.APPLYCOLLECT ∨ s.fState = State.APPLY →
      (TwistAndRescale.ProcessCorrections sq s det vc).2.2 = true) := by
  refine ⟨?_, ?_, ?_, ?_⟩
  · intro hgm bin aT aR tr h hguard
    rcases hguard with hg | hg | hg | hg <;>
      (simp only [TwistAndRescale.doubleHarmonicStep]; split_ifs <;> rfl)
  · intro sq hgm bin aT aR tr h XAXC YAYB XAXB XBXC XAYB XBYC e1 e2 e3 e4 e5 e6 hguard
    subst e1
    subst e2
    subst e3
    subst e4
    subst e5
    subst e6
    rcases hguard with hg | hg | hg | hg <;>
      (simp only [TwistAndRescale.correlationsStep]; split_ifs <;> rfl)
  · intro sq hgm bin aR tr h XAXC YAYB XAXB XBXC XAYB XBYC e1 e2 e3 e4 e5 e6 g1 g2 g3 g4 hA
    subst e1
    subst e2
    subst e3
    subst e4
    subst e5
    subst e6
    simp only [TwistAndRescale.correlationsStep]
    rw [if_neg g1, if_neg g2, if_neg g3, if_neg g4]
    rcases hA with hA | ⟨hA1, hA2⟩
    · simp [hA]
    · simp [hA1, hA2]
  · intro sq s det vc hstate
    obtain ⟨st, mth, aT, aR, dhin, dhcal, coin, cocal, nve, qat, qar, cv, tv, rv, iv, bv, cvv⟩ := s
    simp only at hstate
    rcases hstate with h | h <;> subst h <;> rfl

/-- Witness for C1 at a concrete profile whose X2n content makes |A+| exceed
the threshold: the per-harmonic step leaves the vector triple unchanged. -/
theorem twistAndRescale_degenerate_harmonic_policy_witness :
    TwistAndRescale.doubleHarmonicStep thresholdProfileComponents 0 true true
      { corrected := zeroQnVector, twist := zeroQnVector, rescale := zeroQnVector } 2
      = { corrected := zeroQnVector, twist := zeroQnVector, rescale := zeroQnVector } :=
  twistAndRescale_degenerate_harmonic_policy.1 thresholdProfileComponents 0 true true
    { corrected := zeroQnVector, twist := zeroQnVector, rescale := zeroQnVector } 2
    (Or.inl (by norm_num [dhAplus, fMaxThreshold, thresholdProfileComponents,
      validatedZeroProfileComponents, emptyProfileComponents]))

/-- C1 counterexample: in the correlations method with XAXC = 0 and XAXB =
XBXC = YAYB = 1, XAYB = 1/2, XBYC = 0, A+ computes to exactly zero while all
four threshold guards pass, and a ProcessCorrections call on input
(Qx, Qy) = (1, 0) changes Qx of harmonic 2 to 4/3 (the twisted value): the
harmonic is not left uncorrected, and the event is not aborted. -/
theorem twistAndRescale_zero_Aplus_not_uncorrected :
    corrAplus ratSqrt 0 1 1 (1 / 2) 0 = 0
    ∧ cexSubEvent.currentQnVector.qx 2 = 1
    ∧ (TwistAndRescale.ProcessCorrections ratSqrt cexTwistAndRescale cexSubEvent
        []).1.fCorrectedQnVector.qx 2 = 4 / 3
    ∧ (TwistAndRescale.ProcessCorrections ratSqrt cexTwistAndRescale cexSubEvent
        []).1.fCorrectedQnVector.qy 2 = -(2 / 3)
    ∧ (TwistAndRescale.ProcessCorrections ratSqrt cexTwistAndRescale cexSubEvent []).2.2
        = true := by
  refine ⟨?_, rfl, ?_, ?_, rfl⟩
  · norm_num [corrAplus, ratSqrt_zero, ratSqrt_one]
  · norm_num [TwistAndRescale.ProcessCorrections, TwistAndRescale.correlationsStep,
      corrAplus, corrAminus, corrLambdaPlus, corrLambdaMinus, fMaxThreshold,
      cexTwistAndRescale, cexCorrelationsProfile, cexSubEvent, unitQnVector, zeroQnVector,
      CorrectionQnVector.setFrom, CorrectionQnVector.setQx, CorrectionQnVector.setQy,
      QnVectorTriple.setTwist, QnVectorTriple.setRescale, ratSqrt_zero, ratSqrt_one,
      abs_half]
  · norm_num [TwistAndRescale.ProcessCorrections, TwistAndRescale.correlationsStep,
      corrAplus, corrAminus, corrLambdaPlus, corrLambdaMinus, fMaxThreshold,
      cexTwistAndRescale, cexCorrelationsProfile, cexSubEvent, unitQnVector, zeroQnVector,
      CorrectionQnVector.setFrom, CorrectionQnVector.setQx, CorrectionQnVector.setQy,
      QnVectorTriple.setTwist, QnVectorTriple.setRescale, ratSqrt_zero, ratSqrt_one,
      abs_half]

/-- C5 (amended): in GainEqualization's AVERAGE method, for a validated
event-class bin the equalized weight is raw weight / bin average x group
weight when the bin average exceeds the minimum-significance threshold, and is
forced to zero otherwise with no counter increment; the not-validated counter
is incremented (when its QA histogram exists) only for non-validated bins,
where the weight is left unchanged; when the bin average exactly equals the
raw weight and exceeds the threshold, with no group weights configured, the
equalized weight is 1. -/
theorem gainEqualization_average_weight_rule :
    (∀ (s : GainEqualization) (vc : List ℚ)
        (acc : List DataVector × Option HistogramChannelizedSparse) (dv : DataVector),
      s.fInputHistograms.binContentValidated (s.fInputHistograms.getBin vc dv.id) = true →
      (fMinimumSignificantValue
          < s.fInputHistograms.binContent (s.fInputHistograms.getBin vc dv.id) →
        s.averageStep vc acc dv
          = (acc.1 ++ [{ dv with eqWeight := dv.eqWeight / s.fInputHistograms.binContent (s.fInputHistograms.getBin vc dv.id) * s.groupWeight vc dv.id }], acc.2))
      ∧ (¬ fMinimumSignificantValue
          < s.fInputHistograms.binContent (s.fInputHistograms.getBin vc dv.id) →
        s.averageStep vc acc dv = (acc.1 ++ [{ dv with eqWeight := 0 }], acc.2)))
    ∧ (∀ (s : GainEqualization) (vc : List ℚ)
        (acc : List DataVector × Option HistogramChannelizedSparse) (dv : DataVector),
      s.fInputHistograms.binContentValidated (s.fInputHistograms.getBin vc dv.id) = false →
      s.averageStep vc acc dv
        = (acc.1 ++ [dv], acc.2.map (fun h => h.fill vc dv.id 1)))
    ∧ (∀ (s : GainEqualization) (vc : List ℚ)
        (acc : List DataVector × Option HistogramChannelizedSparse) (dv : DataVector),
      s.fInputHistograms.binContentValidated (s.fInputHistograms.getBin vc dv.id) = true →
      s.fInputHistograms.binContent (s.fInputHistograms.getBin vc dv.id) = dv.eqWeight →
      fMinimumSignificantValue < dv.eqWeight →
      s.fUseChannelGroupsWeights = false → s.fHardCodedWeights = none →
      s.averageStep vc acc dv = (acc.1 ++ [{ dv with eqWeight := 1 }], acc.2)) := by
  refine ⟨?_, ?_, ?_⟩
  · intro s vc acc dv hval
    exact ⟨fun hlt => by simp [GainEqualization.averageStep, hval, hlt],
      fun hlt => by simp [GainEqualization.averageStep, hval, hlt]⟩
  · intro s vc acc dv hval
    simp [GainEqualization.averageStep, hval]
  · intro s vc acc dv hval havg hlt hug hhw
    have hne : dv.eqWeight ≠ 0 := by
      have : (0 : ℚ) < dv.eqWeight := lt_trans (by norm_num [fMinimumSignificantValue]) hlt
      exact ne_of_gt this
    simp [GainEqualization.averageStep, GainEqualization.groupWeight, hval, havg, hlt, hug,
      hhw, div_self hne]

/-- Witness for C5 at a concrete channel whose bin average equals its raw
weight 5. -/
theorem gainEqualization_average_weight_rule_witness :
    GainEqualization.averageStep
      { cexGainEqualizationAvg with
        fInputHistograms := { cexValidatedZeroIngress with binContent := fun _ => 5 } }
      [] ([], none) { id := 0, eqWeight := 5 }
      = ([{ id := 0, eqWeight := 1 }], none) := by
  have h := gainEqualization_average_weight_rule.2.2
    { cexGainEqualizationAvg with
      fInputHistograms := { cexValidatedZeroIngress with binContent := fun _ => 5 } }
    [] ([], none) { id := 0, eqWeight := 5 } rfl rfl
    (by norm_num [fMinimumSignificantValue]) rfl rfl
  simpa using h

/-- C5 counterexample: a validated bin whose average is zero (below the
minimum-significance threshold) forces the equalized weight to zero, but the
not-validated counter, although its QA histogram exists, is not incremented. -/
theorem gainEqualization_insignificant_average_no_counter :
    cexGainEqualizationAvg.fInputHistograms.binContentValidated
      (cexGainEqualizationAvg.fInputHistograms.getBin [] 0) = true
    ∧ cexGainEqualizationAvg.fQANotValidatedBin = some { fills := [] }
    ∧ (GainEqualization.ProcessCorrections cexGainEqualizationAvg cexBank []).2.1
        = [{ id := 0, eqWeight := 0 }]
    ∧ (GainEqualization.ProcessCorrections cexGainEqualizationAvg cexBank
        []).1.fQANotValidatedBin = some { fills := [] } := by
  refine ⟨rfl, rfl, ?_, ?_⟩ <;>
    norm_num [GainEqualization.ProcessCorrections, GainEqualization.applyBody,
      GainEqualization.averageStep, GainEqualization.groupWeight, cexGainEqualizationAvg,
      cexGainEqualization, cexValidatedZeroIngress, emptyIngress, cexBank,
      fMinimumSignificantValue]

/-- Setting the two components of a vector at one harmonic to their current
values changes nothing. -/
theorem setQxQy_self (v : CorrectionQnVector) (h : Int) :
    (v.setQx h (v.qx h)).setQy h (v.qy h) = v := by
  obtain ⟨qx, qy, g⟩ := v
  simp only [CorrectionQnVector.setQx, CorrectionQnVector.setQy, CorrectionQnVector.mk.injEq]
  refine ⟨funext fun x => ?_, funext fun x => ?_, trivial⟩ <;>
    by_cases hx : x = h <;> simp [hx]

/-- With zero double-harmonic bin contents, the per-harmonic twist-and-rescale
step is the identity on a triple of equal vectors. -/
theorem dhStep_zero_identity (hgm : CorrectionProfileComponents) (bin : Int)
    (aT aR : Bool) (c : CorrectionQnVector) (h : Int)
    (hx : hgm.xBinContent (h * 2) bin = 0) (hy : hgm.yBinContent (h * 2) bin = 0) :
    TwistAndRescale.doubleHarmonicStep hgm bin aT aR ⟨c, c, c⟩ h = ⟨c, c, c⟩ := by
  simp only [TwistAndRescale.doubleHarmonicStep, hx, hy, dhAplus, dhAminus, dhLambdaPlus,
    dhLambdaMinus, fMaxThreshold]
  norm_num
  cases aT <;> cases aR <;>
    simp [QnVectorTriple.setTwist, QnVectorTriple.setRescale, setQxQy_self]

/-- A fold of identity steps is the identity. -/
theorem foldl_dhStep_zero_identity (hgm : CorrectionProfileComponents) (bin : Int)
    (aT aR : Bool) (hs : List Int) (c : CorrectionQnVector)
    (hzero : ∀ h ∈ hs, hgm.xBinContent (h * 2) bin = 0 ∧ hgm.yBinContent (h * 2) bin = 0) :
    hs.foldl (TwistAndRescale.doubleHarmonicStep hgm bin aT aR) ⟨c, c, c⟩ = ⟨c, c, c⟩ := by
  induction hs with
  | nil => rfl
  | cons h t ih =>
    rw [List.foldl_cons, dhStep_zero_identity hgm bin aT aR c h (hzero h (by simp)).1
      (hzero h (by simp)).2]
    exact ih fun x hx => hzero x (by simp [hx])

/-- C7: with X2n = Y2n = 0 the double-harmonic formulas give A+ = A- = 1 and
Lambda+ = Lambda- = 0, and ProcessCorrections is the identity transform on the
Qx/Qy components of every harmonic. -/
theorem twistAndRescale_doubleHarmonic_identity :
    dhAplus 0 = 1 ∧ dhAminus 0 = 1 ∧ dhLambdaPlus 0 0 = 0 ∧ dhLambdaMinus 0 0 = 0
    ∧ (∀ (hgm : CorrectionProfileComponents) (bin : Int) (aT aR : Bool)
        (c : CorrectionQnVector) (h : Int),
        hgm.xBinContent (h * 2) bin = 0 → hgm.yBinContent (h * 2) bin = 0 →
        TwistAndRescale.doubleHarmonicStep hgm bin aT aR ⟨c, c, c⟩ h = ⟨c, c, c⟩)
    ∧ (∀ (sq : ℚ → ℚ) (s : TwistAndRescale) (det : SubEvent) (vc : List ℚ),
        s.fState = State.APPLYCOLLECT ∨ s.fState = State.APPLY →
        s.fTwistAndRescaleMethod = TwistAndRescaleMethod.TWRESCALE_doubleHarmonic →
        det.currentQnVector.good = true →
        s.fDoubleHarmonicInputHistograms.binContentValidated
          (s.fDoubleHarmonicInputHistograms.getBin vc) = true →
        (∀ h ∈ det.harmonics,
          s.fDoubleHarmonicInputHistograms.xBinContent (h * 2)
              (s.fDoubleHarmonicInputHistograms.getBin vc) = 0
          ∧ s.fDoubleHarmonicInputHistograms.yBinContent (h * 2)
              (s.fDoubleHarmonicInputHistograms.getBin vc) = 0) →
        (TwistAndRescale.ProcessCorrections sq s det vc).1.fCorrectedQnVector.qx
            = det.currentQnVector.qx
        ∧ (TwistAndRescale.ProcessCorrections sq s det vc).1.fCorrectedQnVector.qy
            = det.currentQnVector.qy
        ∧ (TwistAndRescale.ProcessCorrections sq s det vc).2.2 = true) := by
  refine ⟨by norm_num [dhAplus], by norm_num [dhAminus],
    by norm_num [dhLambdaPlus, dhAplus], by norm_num [dhLambdaMinus, dhAminus],
    dhStep_zero_identity, ?_⟩
  intro sq s det vc hstate hmth hgood hval hzero
  obtain ⟨st, mth, aT, aR, dhin, dhcal, coin, cocal, nve, qat, qar, cv, tv, rv, iv, bv, cvv⟩ := s
  simp only at hstate hmth hgood hval hzero
  subst hmth
  rcases hstate with h | h <;> subst h <;>
    refine ⟨?_, ?_, rfl⟩ <;>
    simp [TwistAndRescale.ProcessCorrections, hgood, hval, CorrectionQnVector.setFrom,
      foldl_dhStep_zero_identity dhin (dhin.getBin vc) aT aR det.harmonics
        ⟨det.currentQnVector.qx, det.currentQnVector.qy, true⟩ hzero]

/-- Witness for C7: on the validated all-zero double-harmonic profile, the
corrected vector keeps the input components. -/
theorem twistAndRescale_doubleHarmonic_identity_witness :
    (TwistAndRescale.ProcessCorrections ratSqrt cexTwistAndRescaleZero
        cexSubEvent []).1.fCorrectedQnVector.qx = cexSubEvent.currentQnVector.qx
    ∧ dhAplus 0 = 1 := by
  have h := twistAndRescale_doubleHarmonic_identity.2.2.2.2.2 ratSqrt
    cexTwistAndRescaleZero cexSubEvent [] (Or.inr rfl) rfl rfl rfl
    (fun h hh => ⟨rfl, rfl⟩)
  exact ⟨h.1, twistAndRescale_doubleHarmonic_identity.1⟩

/-- C9 (amended): in state APPLY or APPLYCOLLECT, ProcessCorrections of
Recentering and TwistAndRescale always returns true; Recentering always
reassigns the sub-event current Qn vector to its output vector, while
TwistAndRescale reassigns it exactly when a sub-step (twist or rescale) is
enabled, and with both enabled the current vector ends at the rescale output;
in all cases the returned applied signal does not imply the components
changed. -/
theorem processCorrections_applied_signal :
    (∀ (s : Recentering) (det : SubEvent) (vc : List ℚ),
      s.fState = State.APPLYCOLLECT ∨ s.fState = State.APPLY →
      (Recentering.ProcessCorrections s det vc).2.2 = true
      ∧ (Recentering.ProcessCorrections s det vc).2.1.updateTrace
          = det.updateTrace ++ [(Recentering.ProcessCorrections s det vc).1.fCorrectedQnVector]
      ∧ (Recentering.ProcessCorrections s det vc).2.1.currentQnVector
          = (Recentering.ProcessCorrections s det vc).1.fCorrectedQnVector)
    ∧ (∀ (sq : ℚ → ℚ) (s : TwistAndRescale) (det : SubEvent) (vc : List ℚ),
      s.fState = State.APPLYCOLLECT ∨ s.fState = State.APPLY →
      (TwistAndRescale.ProcessCorrections sq s det vc).2.2 = true)
    ∧ (∀ (sq : ℚ → ℚ) (s : TwistAndRescale) (det : SubEvent) (vc : List ℚ),
      s.fState = State.APPLYCOLLECT ∨ s.fState = State.APPLY →
      s.fApplyTwist = false → s.fApplyRescale = false →
      (TwistAndRescale.ProcessCorrections sq s det vc).2.1 = det)
    ∧ (∀ (sq : ℚ → ℚ) (s : TwistAndRescale) (det : SubEvent) (vc : List ℚ),
      s.fState = State.APPLYCOLLECT ∨ s.fState = State.APPLY →
      s.fApplyTwist = true → s.fApplyRescale = true →
      (TwistAndRescale.ProcessCorrections sq s det vc).2.1.updateTrace
        = det.updateTrace
          ++ [(TwistAndRescale.ProcessCorrections sq s det vc).1.fTwistCorrectedQnVector,
              (TwistAndRescale.ProcessCorrections sq s det vc).1.fRescaleCorrectedQnVector]
      ∧ (TwistAndRescale.ProcessCorrections sq s det vc).2.1.currentQnVector
        = (TwistAndRescale.ProcessCorrections sq s det vc).1.fRescaleCorrectedQnVector) := by
  refine ⟨?_, ?_, ?_, ?_⟩
  · intro s det vc hstate
    obtain ⟨st, aw, ih, ch, qa, nve, cv, iv⟩ := s
    simp only at hstate
    rcases hstate with h | h <;> subst h <;>
      cases hgood : det.currentQnVector.good <;>
      simp [Recentering.ProcessCorrections, hgood, SubEvent.updateCurrentQnVector] <;>
      split_ifs <;>
      simp [SubEvent.updateCurrentQnVector]
  · intro sq s det vc hstate
    obtain ⟨st, mth, aT, aR, dhin, dhcal, coin, cocal, nve, qat, qar, cv, tv, rv, iv, bv, cvv⟩ := s
    simp only at hstate
    rcases hstate with h | h <;> subst h <;> rfl
  · intro sq s det vc hstate hT hR
    obtain ⟨st, mth, aT, aR, dhin, dhcal, coin, cocal, nve, qat, qar, cv, tv, rv, iv, bv, cvv⟩ := s
    simp only at hstate hT hR
    subst hT
    subst hR
    rcases hstate with h | h <;> subst h <;> cases mth <;>
      cases hgood : det.currentQnVector.good <;>
      simp [TwistAndRescale.ProcessCorrections, hgood] <;>
      split_ifs <;>
      simp_all
  · intro sq s det vc hstate hT hR
    obtain ⟨st, mth, aT, aR, dhin, dhcal, coin, cocal, nve, qat, qar, cv, tv, rv, iv, bv, cvv⟩ := s
    simp only at hstate hT hR
    subst hT
    subst hR
    rcases hstate with h | h <;> subst h <;> cases mth <;>
      cases hgood : det.currentQnVector.good <;>
      simp [TwistAndRescale.ProcessCorrections, hgood, SubEvent.updateCurrentQnVector] <;>
      split_ifs <;>
      simp_all [SubEvent.updateCurrentQnVector]

/-- Witness for C9 at a concrete applying TwistAndRescale state with both
sub-steps enabled. -/
theorem processCorrections_applied_signal_witness :
    (TwistAndRescale.ProcessCorrections ratSqrt cexTwistAndRescale cexSubEvent []).2.2 = true
    ∧ (TwistAndRescale.ProcessCorrections ratSqrt cexTwistAndRescale
        cexSubEvent []).2.1.updateTrace.length = 2 := by
  refine ⟨processCorrections_applied_signal.2.1 ratSqrt cexTwistAndRescale cexSubEvent []
    (Or.inr rfl), ?_⟩
  have h := (processCorrections_applied_signal.2.2.2 ratSqrt cexTwistAndRescale cexSubEvent []
    (Or.inr rfl) rfl rfl).1
  rw [h]
  simp [cexSubEvent]

/-- C9 counterexample: a concrete applying TwistAndRescale call with both the
twist and the rescale sub-steps disabled returns true (applied), yet the
sub-event current Qn vector is never reassigned. -/
theorem twistAndRescale_applied_without_reassignment :
    cexTwistAndRescaleOff.fState = State.APPLY
    ∧ cexTwistAndRescaleOff.fApplyTwist = false
    ∧ cexTwistAndRescaleOff.fApplyRescale = false
    ∧ (TwistAndRescale.ProcessCorrections ratSqrt cexTwistAndRescaleOff cexSubEvent []).2.2
        = true
    ∧ (TwistAndRescale.ProcessCorrections ratSqrt cexTwistAndRescaleOff
        cexSubEvent []).2.1 = cexSubEvent := by
  exact ⟨rfl, rfl, rfl, rfl, rfl⟩

/-- Witness for C6 at concrete operation lists. -/
theorem correction_state_machine_invariants_witness :
    runStates [StepOp.attachInput true] = State.APPLYCOLLECT
    ∧ runStates ([StepOp.attachInput true] ++ [StepOp.calibrationFrozen])
        ≠ State.CALIBRATION
    ∧ StepOp.afterInputsAttach TwistAndRescaleMethod.TWRESCALE_correlations false
        ∈ [StepOp.attachInput true,
           StepOp.afterInputsAttach TwistAndRescaleMethod.TWRESCALE_correlations false] := by
  refine ⟨by decide, ?_, ?_⟩
  · exact correction_state_machine_invariants.2.2.1 [StepOp.attachInput true]
      [StepOp.calibrationFrozen] (Or.inl (by decide))
  · exact correction_state_machine_invariants.2.2.2
      [StepOp.attachInput true,
       StepOp.afterInputsAttach TwistAndRescaleMethod.TWRESCALE_correlations false]
      (by decide)

end Qn
